import Mathlib

/-!
Verification of the ETI_App staging/promotion/backfill scripts
(Google Apps Script, repository version v1.3).

Each spreadsheet cell value returned by `getDataRange().getValues()` is a
JavaScript string, boolean or number; we embed it as the inductive `Cell`
(dates do not occur in any gating predicate of the verified scripts, and
numeric cells are embedded with integer values, which is enough for every
truthiness / strict-equality test the scripts perform).  JavaScript
truthiness (`if (x)`), strict equality (`x === true`) and stringification
(`String(x)`) are modelled explicitly by `truthy`, `isTrueCell` and
`jsString`.  Each script's row loop is translated into a structurally
recursive function over the list of data rows; the non-deterministic
`Utilities.getUuid()` supply is threaded as an explicit function
`uuid : Nat → String` together with a position counter.
-/

/-- A spreadsheet cell value as seen by Apps Script: string, boolean or
(integer-valued) number. -/
inductive Cell where
  | s (v : String)
  | b (v : Bool)
  | n (v : Int)
deriving DecidableEq, Repr

/-- JavaScript truthiness of a cell value: `""`, `false` and `0` are falsy,
everything else is truthy. -/
def truthy : Cell → Bool
  | .s v => v ≠ ""
  | .b v => v
  | .n v => v ≠ 0

/-- JavaScript strict equality against the literal `true`
(`x === true`). -/
def isTrueCell (c : Cell) : Bool := c = Cell.b true

/-- JavaScript `String(x)` on a cell value. -/
def jsString : Cell → String
  | .s v => v
  | .b true => "true"
  | .b false => "false"
  | .n v => toString v

/-- JavaScript `a || b` on cell values: `a` if truthy, else `b`. -/
def cellOr (a b : Cell) : Cell := if truthy a then a else b

/-! ### Promotion Engine
Embedding of `promoteApprovedProducts_FromStaging_ToLookup`
(src/apps_script/v_1.3/12_promoteApprovedProducts_FromStaging_ToLookup.js,
lines 131-206): the per-row promotion loop followed by the batch append to
`Lookup_Products` and the per-row write-back to `Staging_Lookup_Products`. -/

/-- A data row of `Staging_Lookup_Products`, with the columns the script
resolves by header name (source lines 106-114; the header typos
`Prodcut_…` are the literal column names in the sheet). -/
structure StagingRow where
  entered : Cell
  approved : Cell
  canon : Cell
  isApproved : Cell
  isPromoted : Cell
  mappedId : Cell
  rowNotes : Cell
deriving DecidableEq, Repr

/-- A data row of `Lookup_Products`, with the columns the script resolves
by header name (source lines 83-92). -/
structure LookupRow where
  productId : Cell
  productHuman : Cell
  productName : Cell
  productCanon : Cell
  isActive : Cell
  isArchived : Cell
  isStgPromoted : Cell
  rowNotes : Cell
deriving DecidableEq, Repr

/-- The body of the promotion loop for one staging row (source lines
136-170): `none` means the row is skipped (not approved, already promoted,
or no derivable name); `some (lk, r')` gives the queued `Lookup_Products`
row and the staging row after the write-back of
`Mapped_Prodcut_ID_Machine`, `Is_Lookup_Promoted` and `Notes`.
`u` is the value of `Utilities.getUuid()` for this row. -/
def promoteOneRow (u : String) (r : StagingRow) : Option (LookupRow × StagingRow) :=
  if ¬ isTrueCell r.isApproved then none
  else if isTrueCell r.isPromoted then none
  else
    let finalName := cellOr r.approved r.entered
    if ¬ truthy finalName then none
    else
      let canon := cellOr r.canon (Cell.s "")
      let newLookupRow : LookupRow :=
        { productId := Cell.s u
          productHuman := Cell.s ""
          productName := finalName
          productCanon := canon
          isActive := Cell.b true
          isArchived := Cell.b false
          isStgPromoted := Cell.b true
          rowNotes := Cell.s "Promoted from staging" }
      let existingNote := cellOr r.rowNotes (Cell.s "")
      let newNote :=
        (if truthy existingNote then jsString existingNote ++ " | " else "") ++
        "Promoted to Lookup_Products → Product_ID_Machine=" ++ u
      some (newLookupRow,
        { r with
          mappedId := Cell.s u
          isPromoted := Cell.b true
          rowNotes := Cell.s newNote })

/-- The promotion loop over all staging data rows (source lines 131-187),
threading the uuid supply position `k`.  Returns the final supply
position, the list of queued `Lookup_Products` rows (in row order) and the
staging rows after the write-back step. -/
def promoteRun (uuid : Nat → String) : Nat → List StagingRow →
    Nat × List LookupRow × List StagingRow
  | k, [] => (k, [], [])
  | k, r :: rest =>
    match promoteOneRow (uuid k) r with
    | none =>
      let out := promoteRun uuid k rest
      (out.1, out.2.1, r :: out.2.2)
    | some (lk, r') =>
      let out := promoteRun uuid (k + 1) rest
      (out.1, lk :: out.2.1, r' :: out.2.2)

/-- The two tables the Promotion Engine touches. -/
structure PromotionState where
  lookup : List LookupRow
  staging : List StagingRow
deriving DecidableEq, Repr

/-- One full run of the Promotion Engine: scan all staging rows, then
batch-append the queued rows to `Lookup_Products` (source lines 191-198)
and apply the staging write-backs (source lines 202-206). -/
def promoteApprovedProducts (uuid : Nat → String) (k : Nat)
    (st : PromotionState) : Nat × PromotionState :=
  let out := promoteRun uuid k st.staging
  (out.1, { lookup := st.lookup ++ out.2.1, staging := out.2.2 })

/-- The predicate under which the loop body promotes a staging row:
approved, not yet promoted, and a truthy final name. -/
def promotable (r : StagingRow) : Bool :=
  isTrueCell r.isApproved && ¬ isTrueCell r.isPromoted &&
    truthy (cellOr r.approved r.entered)

example :
    promoteOneRow "u1"
      { entered := Cell.s "coke", approved := Cell.s "Coca-Cola",
        canon := Cell.s "coca cola", isApproved := Cell.b true,
        isPromoted := Cell.b false, mappedId := Cell.s "",
        rowNotes := Cell.s "" } =
    some
      ({ productId := Cell.s "u1", productHuman := Cell.s "",
         productName := Cell.s "Coca-Cola", productCanon := Cell.s "coca cola",
         isActive := Cell.b true, isArchived := Cell.b false,
         isStgPromoted := Cell.b true, rowNotes := Cell.s "Promoted from staging" },
       { entered := Cell.s "coke", approved := Cell.s "Coca-Cola",
         canon := Cell.s "coca cola", isApproved := Cell.b true,
         isPromoted := Cell.b true, mappedId := Cell.s "u1",
         rowNotes := Cell.s "Promoted to Lookup_Products → Product_ID_Machine=u1" }) := by
  decide

/-! ### Lemmas about the Promotion Engine -/

/-- The loop body promotes a row exactly when `promotable` holds; the skip
decisions do not depend on the generated uuid. -/
theorem promoteOneRow_isSome (u : String) (r : StagingRow) :
    (promoteOneRow u r).isSome = promotable r := by
  unfold promoteOneRow promotable
  by_cases h1 : isTrueCell r.isApproved <;>
    by_cases h2 : isTrueCell r.isPromoted <;>
    by_cases h3 : truthy (cellOr r.approved r.entered) <;>
    simp [h1, h2, h3]

theorem promoteOneRow_none_of_promoted (u : String) (r : StagingRow)
    (h : isTrueCell r.isPromoted = true) : promoteOneRow u r = none := by
  unfold promoteOneRow
  by_cases h1 : isTrueCell r.isApproved <;> simp [h1, h]

/-- A staging row produced by a successful promotion write-back is inert:
its fields other than `mappedId`, `isPromoted` and `rowNotes` are those of
the input row, and its promoted flag is strictly `true`. -/
theorem promoteOneRow_some (u : String) (r : StagingRow) (lk : LookupRow)
    (r' : StagingRow) (h : promoteOneRow u r = some (lk, r')) :
    r'.isPromoted = Cell.b true ∧ r'.mappedId = Cell.s u ∧
    r'.entered = r.entered ∧ r'.approved = r.approved ∧
    r'.canon = r.canon ∧ r'.isApproved = r.isApproved := by
  unfold promoteOneRow at h
  by_cases h1 : isTrueCell r.isApproved <;>
    by_cases h2 : isTrueCell r.isPromoted <;>
    by_cases h3 : truthy (cellOr r.approved r.entered) <;>
    simp [h1, h2, h3] at h
  obtain ⟨_, h'⟩ := h
  subst h'
  simp

/-- Every staging row in the output of the promotion loop is inert: the
loop body skips it on any later run, whatever uuid supply is used. -/
theorem promoteRun_output_inert (uuid : Nat → String) (k : Nat)
    (stg : List StagingRow) :
    ∀ r' ∈ (promoteRun uuid k stg).2.2, ∀ u', promoteOneRow u' r' = none := by
  induction stg generalizing k with
  | nil => simp [promoteRun]
  | cons r rest ih =>
    intro r' hr' u'
    unfold promoteRun at hr'
    cases h : promoteOneRow (uuid k) r with
    | none =>
      rw [h] at hr'
      simp only [List.mem_cons] at hr'
      rcases hr' with rfl | hr'
      · have := promoteOneRow_isSome (uuid k) r'
        rw [h] at this
        have hp : promotable r' = false := by
          simpa using this.symm
        have := promoteOneRow_isSome u' r'
        rw [hp] at this
        exact Option.not_isSome_iff_eq_none.mp (by simp [this])
      · exact ih k r' hr' u'
    | some p =>
      rw [h] at hr'
      simp only [List.mem_cons] at hr'
      rcases hr' with rfl | hr'
      · have hsome := promoteOneRow_some (uuid k) r p.1 p.2 (by rw [h])
        exact promoteOneRow_none_of_promoted u' p.2 (by simp [isTrueCell, hsome.1])
      · exact ih (k + 1) r' hr' u'


/-- Running the promotion loop over rows that the loop body skips is a
complete no-op. -/
theorem promoteRun_of_inert (uuid : Nat → String) (k : Nat)
    (stg : List StagingRow)
    (h : ∀ r ∈ stg, ∀ u, promoteOneRow u r = none) :
    promoteRun uuid k stg = (k, [], stg) := by
  induction stg generalizing k with
  | nil => rfl
  | cons r rest ih =>
    have hr : promoteOneRow (uuid k) r = none := h r (by simp) (uuid k)
    unfold promoteRun
    rw [hr, ih k (fun r' hr' u => h r' (by simp [hr']) u)]

/-- The promotion loop queues exactly one new `Lookup_Products` row per
`promotable` staging row. -/
theorem promoteRun_length (uuid : Nat → String) (k : Nat)
    (stg : List StagingRow) :
    (promoteRun uuid k stg).2.1.length = stg.countP (promotable ·) := by
  induction stg generalizing k with
  | nil => rfl
  | cons r rest ih =>
    unfold promoteRun
    cases h : promoteOneRow (uuid k) r with
    | none =>
      have := promoteOneRow_isSome (uuid k) r
      rw [h] at this
      simp [List.countP_cons, ← this, ih k]
    | some p =>
      have := promoteOneRow_isSome (uuid k) r
      rw [h] at this
      simp [List.countP_cons, ← this, ih (k + 1)]

/-- A staging row the loop body skips comes out of the promotion loop
unchanged, at the same position. -/
theorem promoteRun_get_skipped (uuid : Nat → String) (k : Nat)
    (stg : List StagingRow) (i : Nat) (r : StagingRow)
    (h : stg.get? i = some r) (hp : promotable r = false) :
    (promoteRun uuid k stg).2.2.get? i = some r := by
  induction stg generalizing k i with
  | nil => simp at h
  | cons r0 rest ih =>
    cases i with
    | zero =>
      simp at h
      subst h
      have hnone : promoteOneRow (uuid k) r0 = none := by
        have := promoteOneRow_isSome (uuid k) r0
        rw [hp] at this
        exact Option.not_isSome_iff_eq_none.mp (by simp [this])
      unfold promoteRun
      rw [hnone]
      simp
    | succ i =>
      simp only [List.get?_cons_succ] at h
      unfold promoteRun
      cases h0 : promoteOneRow (uuid k) r0 with
      | none => simpa using ih k i h
      | some p => simpa using ih (k + 1) i h

/-- A `promotable` staging row comes out of the promotion loop at the same
position as the write-back image of the loop body, for some position `m`
of the uuid supply. -/
theorem promoteRun_get_promoted (uuid : Nat → String) (k : Nat)
    (stg : List StagingRow) (i : Nat) (r : StagingRow)
    (h : stg.get? i = some r) (hp : promotable r = true) :
    ∃ m lk r', promoteOneRow (uuid m) r = some (lk, r') ∧
      (promoteRun uuid k stg).2.2.get? i = some r' := by
  induction stg generalizing k i with
  | nil => simp at h
  | cons r0 rest ih =>
    cases i with
    | zero =>
      simp at h
      subst h
      have hsome : (promoteOneRow (uuid k) r0).isSome = true := by
        rw [promoteOneRow_isSome, hp]
      obtain ⟨p, hps⟩ := Option.isSome_iff_exists.mp hsome
      refine ⟨k, p.1, p.2, by rw [hps], ?_⟩
      unfold promoteRun
      rw [hps]
      simp
    | succ i =>
      simp only [List.get?_cons_succ] at h
      unfold promoteRun
      cases h0 : promoteOneRow (uuid k) r0 with
      | none =>
        obtain ⟨m, lk, r', h1, h2⟩ := ih k i h
        exact ⟨m, lk, r', h1, by simpa using h2⟩
      | some p =>
        obtain ⟨m, lk, r', h1, h2⟩ := ih (k + 1) i h
        exact ⟨m, lk, r', h1, by simpa using h2⟩


/-- The queued `Lookup_Products` row of a successful promotion carries the
resolved final name (`Approved → fallback Entered`), the generated
machine identifier, and the lineage flags (source lines 149-157). -/
theorem promoteOneRow_lookup (u : String) (r : StagingRow) (lk : LookupRow)
    (r' : StagingRow) (h : promoteOneRow u r = some (lk, r')) :
    lk.productName = cellOr r.approved r.entered ∧
    lk.productId = Cell.s u ∧ lk.isActive = Cell.b true ∧
    lk.isStgPromoted = Cell.b true := by
  unfold promoteOneRow at h
  by_cases h1 : isTrueCell r.isApproved <;>
    by_cases h2 : isTrueCell r.isPromoted <;>
    by_cases h3 : truthy (cellOr r.approved r.entered) <;>
    simp [h1, h2, h3] at h
  obtain ⟨h', _⟩ := h
  subst h'
  simp

/-- C1 (amended): for every staging row with `Is_Approved = true`,
`Is_Lookup_Promoted = false` and a truthy final name — i.e. every
`promotable` row — one run of the Promotion Engine sets
`Is_Lookup_Promoted` to `true`, writes a non-empty mapped machine
identifier, and queues exactly one new master row per such staging row;
rows the loop skips are unchanged, and a second run starting from the
resulting state appends zero master rows and changes nothing at all. -/
theorem promotion_exactly_once (uuid : Nat → String)
    (huuid : ∀ m, uuid m ≠ "") (k : Nat) (st : PromotionState) :
    ((promoteApprovedProducts uuid k st).2.lookup.length =
        st.lookup.length + st.staging.countP (promotable ·)) ∧
    (∀ i r, st.staging.get? i = some r → promotable r = true →
      ∃ r', (promoteApprovedProducts uuid k st).2.staging.get? i = some r' ∧
        r'.isPromoted = Cell.b true ∧
        (∃ u, u ≠ "" ∧ r'.mappedId = Cell.s u) ∧
        r'.entered = r.entered ∧ r'.approved = r.approved ∧
        r'.canon = r.canon ∧ r'.isApproved = r.isApproved) ∧
    (∀ i r, st.staging.get? i = some r → promotable r = false →
      (promoteApprovedProducts uuid k st).2.staging.get? i = some r) ∧
    (∀ uuid' k', promoteApprovedProducts uuid' k'
        (promoteApprovedProducts uuid k st).2 =
      (k', (promoteApprovedProducts uuid k st).2)) := by
  refine ⟨?_, ?_, ?_, ?_⟩
  · simp [promoteApprovedProducts, promoteRun_length]
  · intro i r h hp
    obtain ⟨m, lk, r', h1, h2⟩ := promoteRun_get_promoted uuid k st.staging i r h hp
    have hs := promoteOneRow_some (uuid m) r lk r' h1
    exact ⟨r', h2, hs.1, ⟨uuid m, huuid m, hs.2.1⟩, hs.2.2.1, hs.2.2.2.1,
      hs.2.2.2.2.1, hs.2.2.2.2.2⟩
  · intro i r h hp
    exact promoteRun_get_skipped uuid k st.staging i r h hp
  · intro uuid' k'
    have hinert := promoteRun_output_inert uuid k st.staging
    have := promoteRun_of_inert uuid' k'
      (promoteRun uuid k st.staging).2.2 hinert
    simp [promoteApprovedProducts, this]

/-- Witness for `promotion_exactly_once` on a one-row staging table with a
qualifying row and an empty master table: one master row is appended and
the second run is the identity. -/
theorem promotion_exactly_once_witness :
    ((promoteApprovedProducts (fun _ => "u") 0
        { lookup := [],
          staging := [{ entered := Cell.s "coke", approved := Cell.s "Coca-Cola",
                        canon := Cell.s "coca cola", isApproved := Cell.b true,
                        isPromoted := Cell.b false, mappedId := Cell.s "",
                        rowNotes := Cell.s "" }] }).2.lookup.length = 0 + 1) ∧
    (∀ uuid' k', promoteApprovedProducts uuid' k'
        (promoteApprovedProducts (fun _ => "u") 0
          { lookup := [],
            staging := [{ entered := Cell.s "coke", approved := Cell.s "Coca-Cola",
                          canon := Cell.s "coca cola", isApproved := Cell.b true,
                          isPromoted := Cell.b false, mappedId := Cell.s "",
                          rowNotes := Cell.s "" }] }).2 =
      (k', (promoteApprovedProducts (fun _ => "u") 0
          { lookup := [],
            staging := [{ entered := Cell.s "coke", approved := Cell.s "Coca-Cola",
                          canon := Cell.s "coca cola", isApproved := Cell.b true,
                          isPromoted := Cell.b false, mappedId := Cell.s "",
                          rowNotes := Cell.s "" }] }).2)) := by
  have h := promotion_exactly_once (fun _ => "u") (by intro m; simp) 0
    { lookup := [],
      staging := [{ entered := Cell.s "coke", approved := Cell.s "Coca-Cola",
                    canon := Cell.s "coca cola", isApproved := Cell.b true,
                    isPromoted := Cell.b false, mappedId := Cell.s "",
                    rowNotes := Cell.s "" }] }
  refine ⟨?_, h.2.2.2⟩
  have := h.1
  simpa [List.countP, promotable] using this

/-- Counterexample to C1 as stated: a staging row with
`Is_Approved = true` and `Is_Lookup_Promoted = false` but with empty
entered and approved names is skipped by one run of the Promotion
Engine — zero master rows are appended and `Is_Lookup_Promoted` stays
`false`, against the claim that every such row yields exactly one new
master row and a flipped flag. -/
theorem promotion_counterexample :
    (promoteApprovedProducts (fun _ => "u") 0
      { lookup := [],
        staging := [{ entered := Cell.s "", approved := Cell.s "",
                      canon := Cell.s "", isApproved := Cell.b true,
                      isPromoted := Cell.b false, mappedId := Cell.s "",
                      rowNotes := Cell.s "" }] }).2.lookup.length = 0 ∧
    (promoteApprovedProducts (fun _ => "u") 0
      { lookup := [],
        staging := [{ entered := Cell.s "", approved := Cell.s "",
                      canon := Cell.s "", isApproved := Cell.b true,
                      isPromoted := Cell.b false, mappedId := Cell.s "",
                      rowNotes := Cell.s "" }] }).2.staging =
      [{ entered := Cell.s "", approved := Cell.s "",
         canon := Cell.s "", isApproved := Cell.b true,
         isPromoted := Cell.b false, mappedId := Cell.s "",
         rowNotes := Cell.s "" }] := by
  decide


/-- C6: for every staging row the Promotion Engine promotes, the name
written into the new master row is the approved name when that is
non-empty and otherwise the entered name; a row whose approved and
entered names are both empty is skipped and yields no master row. -/
theorem promotion_name_precedence (u : String) (r : StagingRow)
    (a e : String) (ha : r.approved = Cell.s a) (he : r.entered = Cell.s e) :
    (a ≠ "" → ∀ lk r', promoteOneRow u r = some (lk, r') →
      lk.productName = Cell.s a) ∧
    (a = "" → e ≠ "" → ∀ lk r', promoteOneRow u r = some (lk, r') →
      lk.productName = Cell.s e) ∧
    (a = "" → e = "" → promoteOneRow u r = none) := by
  refine ⟨?_, ?_, ?_⟩
  · intro hna lk r' h
    have := (promoteOneRow_lookup u r lk r' h).1
    rw [this, ha, he]
    simp [cellOr, truthy, hna]
  · intro hea hne lk r' h
    have := (promoteOneRow_lookup u r lk r' h).1
    rw [this, ha, he]
    simp [cellOr, truthy, hea]
  · intro hea hee
    have hp : promotable r = false := by
      simp [promotable, cellOr, truthy, ha, he, hea, hee]
    have := promoteOneRow_isSome u r
    rw [hp] at this
    exact Option.not_isSome_iff_eq_none.mp (by simp [this])

/-- Witness for `promotion_name_precedence`: with
`approved_name = "Coca-Cola"` and `entered_name = "coke"` the promoted
master row's name is `"Coca-Cola"`. -/
theorem promotion_name_precedence_witness :
    promoteOneRow "u1"
      { entered := Cell.s "coke", approved := Cell.s "Coca-Cola",
        canon := Cell.s "", isApproved := Cell.b true,
        isPromoted := Cell.b false, mappedId := Cell.s "",
        rowNotes := Cell.s "" } =
      some
        ({ productId := Cell.s "u1", productHuman := Cell.s "",
           productName := Cell.s "Coca-Cola", productCanon := Cell.s "",
           isActive := Cell.b true, isArchived := Cell.b false,
           isStgPromoted := Cell.b true,
           rowNotes := Cell.s "Promoted from staging" },
         { entered := Cell.s "coke", approved := Cell.s "Coca-Cola",
           canon := Cell.s "", isApproved := Cell.b true,
           isPromoted := Cell.b true, mappedId := Cell.s "u1",
           rowNotes :=
             Cell.s "Promoted to Lookup_Products → Product_ID_Machine=u1" }) ∧
    ({ productId := Cell.s "u1", productHuman := Cell.s "",
       productName := Cell.s "Coca-Cola", productCanon := Cell.s "",
       isActive := Cell.b true, isArchived := Cell.b false,
       isStgPromoted := Cell.b true,
       rowNotes := Cell.s "Promoted from staging" } : LookupRow).productName =
      Cell.s "Coca-Cola" := by
  have hps : promoteOneRow "u1"
      { entered := Cell.s "coke", approved := Cell.s "Coca-Cola",
        canon := Cell.s "", isApproved := Cell.b true,
        isPromoted := Cell.b false, mappedId := Cell.s "",
        rowNotes := Cell.s "" } =
      some
        ({ productId := Cell.s "u1", productHuman := Cell.s "",
           productName := Cell.s "Coca-Cola", productCanon := Cell.s "",
           isActive := Cell.b true, isArchived := Cell.b false,
           isStgPromoted := Cell.b true,
           rowNotes := Cell.s "Promoted from staging" },
         { entered := Cell.s "coke", approved := Cell.s "Coca-Cola",
           canon := Cell.s "", isApproved := Cell.b true,
           isPromoted := Cell.b true, mappedId := Cell.s "u1",
           rowNotes :=
             Cell.s "Promoted to Lookup_Products → Product_ID_Machine=u1" }) := by
    decide
  refine ⟨hps, ?_⟩
  exact (promotion_name_precedence "u1"
    { entered := Cell.s "coke", approved := Cell.s "Coca-Cola",
      canon := Cell.s "", isApproved := Cell.b true,
      isPromoted := Cell.b false, mappedId := Cell.s "",
      rowNotes := Cell.s "" } "Coca-Cola" "coke" rfl rfl).1
    (by decide) _ _ hps


/-! ### Staging Intake
Embedding of `populateStagingLookupBrands_FromTransactionResolution`
(src/apps_script/v_1.3/07_populate_StagingLookupBrands_FromTransactionStaging.js,
lines 86-184): build the in-memory set of canonical brand names already
present in `Staging_Lookup_Brands`, scan `Transaction_Resolution` in row
order, and append one new staging row per not-yet-staged canonical name.
The JavaScript `Set` is embedded as a list of cells with membership up to
`SameValueZero`, which on strings/booleans/integers coincides with `Cell`
equality; the set built from the existing staging rows holds the
`String(v)` images of the truthy canonical cells (source line 89), while
the values added during the scan are the raw cells (source line 170). -/

/-- A data row of `Transaction_Resolution`, with the columns the script
resolves by header name (source lines 100-105). -/
structure ResolutionRow where
  txnId : Cell
  brandId : Cell
  brandEntered : Cell
  brandCanon : Cell
deriving DecidableEq, Repr

/-- A data row of `Staging_Lookup_Brands`, with the columns the script
writes when appending (source lines 156-167). -/
structure BrandStagingRow where
  sourceTxnId : Cell
  stagingBrandId : Cell
  mappedBrandId : Cell
  entered : Cell
  canon : Cell
  approved : Cell
  isApproved : Cell
  isActive : Cell
  isArchived : Cell
  isPromoted : Cell
  reviewStatus : Cell
  rowNotes : Cell
deriving DecidableEq, Repr

/-- The staging row the intake appends for a qualifying source row
(source lines 154-167); `u` is the fresh `Utilities.getUuid()`. -/
def mkBrandStagingRow (u : String) (r : ResolutionRow) : BrandStagingRow :=
  { sourceTxnId := r.txnId
    stagingBrandId := Cell.s u
    mappedBrandId := Cell.s ""
    entered := r.brandEntered
    canon := r.brandCanon
    approved := Cell.s ""
    isApproved := Cell.b false
    isActive := Cell.b true
    isArchived := Cell.b false
    isPromoted := Cell.b false
    reviewStatus := Cell.s "Pending"
    rowNotes := Cell.s "" }

/-- The in-memory set of canonical names built from the existing staging
rows (source lines 86-90): the `String(v)` image of every truthy
`Brand_Name_Canonical` cell. -/
def stagingCanonSet (stg : List BrandStagingRow) : List Cell :=
  (stg.filter (fun r => truthy r.canon)).map (fun r => Cell.s (jsString r.canon))

/-- The staging-population loop (source lines 129-171): skip a source row
without a transaction id, with a resolved brand id, without a canonical
name, or whose canonical name is already in the set; otherwise append one
staging row and add the canonical name to the set. -/
def intakeLoop (uuid : Nat → String) : Nat → List Cell → List ResolutionRow →
    List BrandStagingRow
  | _, _, [] => []
  | k, seen, r :: rest =>
    if ¬ truthy r.txnId then intakeLoop uuid k seen rest
    else if truthy r.brandId then intakeLoop uuid k seen rest
    else if ¬ truthy r.brandCanon then intakeLoop uuid k seen rest
    else if seen.contains r.brandCanon then intakeLoop uuid k seen rest
    else mkBrandStagingRow (uuid k) r ::
      intakeLoop uuid (k + 1) (r.brandCanon :: seen) rest

/-- One full run of the Staging Intake: the existing staging rows followed
by the batch-appended new rows (source lines 177-184). -/
def populateStagingLookupBrands (uuid : Nat → String) (k : Nat)
    (stg : List BrandStagingRow) (src : List ResolutionRow) :
    List BrandStagingRow :=
  stg ++ intakeLoop uuid k (stagingCanonSet stg) src

/-- The source-row gating predicate of the intake loop relative to a set
of already-staged canonical names. -/
def intakeQualifies (seen : List Cell) (r : ResolutionRow) : Bool :=
  truthy r.txnId && ¬ truthy r.brandId && truthy r.brandCanon &&
    ¬ seen.contains r.brandCanon

example :
    intakeLoop (fun k => "id" ++ toString k) 0 []
      [ { txnId := Cell.s "t1", brandId := Cell.s "",
          brandEntered := Cell.s "milk 1L", brandCanon := Cell.s "Milk" },
        { txnId := Cell.s "t2", brandId := Cell.s "",
          brandEntered := Cell.s "Milk (1L)", brandCanon := Cell.s "Milk" },
        { txnId := Cell.s "t3", brandId := Cell.s "",
          brandEntered := Cell.s "MILK-1L", brandCanon := Cell.s "Milk" } ] =
    [ mkBrandStagingRow "id0"
        { txnId := Cell.s "t1", brandId := Cell.s "",
          brandEntered := Cell.s "milk 1L", brandCanon := Cell.s "Milk" } ] := by
  decide


/-- The four sequential skip branches of the intake loop collapse to the
single gating predicate `intakeQualifies`. -/
theorem intakeLoop_cons (uuid : Nat → String) (k : Nat) (seen : List Cell)
    (r : ResolutionRow) (rest : List ResolutionRow) :
    intakeLoop uuid k seen (r :: rest) =
      if intakeQualifies seen r
      then mkBrandStagingRow (uuid k) r ::
        intakeLoop uuid (k + 1) (r.brandCanon :: seen) rest
      else intakeLoop uuid k seen rest := by
  show (if ¬ truthy r.txnId then intakeLoop uuid k seen rest
    else if truthy r.brandId then intakeLoop uuid k seen rest
    else if ¬ truthy r.brandCanon then intakeLoop uuid k seen rest
    else if seen.contains r.brandCanon then intakeLoop uuid k seen rest
    else mkBrandStagingRow (uuid k) r ::
      intakeLoop uuid (k + 1) (r.brandCanon :: seen) rest) = _
  by_cases h1 : truthy r.txnId <;> by_cases h2 : truthy r.brandId <;>
    by_cases h3 : truthy r.brandCanon <;>
    by_cases h4 : seen.contains r.brandCanon <;>
    simp [intakeQualifies, h1, h2, h3, h4]

/-- The gating predicate ignores a set element different from the row's
canonical name. -/
theorem intakeQualifies_cons_ne (seen : List Cell) (c : Cell)
    (r : ResolutionRow) (hne : r.brandCanon ≠ c) :
    intakeQualifies (c :: seen) r = intakeQualifies seen r := by
  simp [intakeQualifies, List.contains_cons, hne]

/-- Every staging row appended by the intake loop has a truthy canonical
name not in the starting set, and the appended canonical names are
pairwise distinct. -/
theorem intakeLoop_canon_fresh (uuid : Nat → String) (k : Nat)
    (seen : List Cell) (src : List ResolutionRow) :
    (∀ a ∈ intakeLoop uuid k seen src,
      truthy a.canon = true ∧ a.canon ∉ seen) ∧
    ((intakeLoop uuid k seen src).map (fun a => a.canon)).Nodup := by
  induction src generalizing k seen with
  | nil => simp [intakeLoop]
  | cons r rest ih =>
    rw [intakeLoop_cons]
    by_cases hq : intakeQualifies seen r = true
    · simp only [hq, if_pos]
      have ihq := ih (k + 1) (r.brandCanon :: seen)
      have hq' := hq
      simp only [intakeQualifies, Bool.and_eq_true] at hq'
      obtain ⟨⟨⟨-, -⟩, hc⟩, hs⟩ := hq'
      have hsmem : r.brandCanon ∉ seen := by simpa using hs
      constructor
      · intro a ha
        simp only [List.mem_cons] at ha
        rcases ha with rfl | ha
        · exact ⟨by simpa [mkBrandStagingRow] using hc,
            by simpa [mkBrandStagingRow] using hsmem⟩
        · have := ihq.1 a ha
          exact ⟨this.1, fun hmem => this.2 (by simp [hmem])⟩
      · simp only [List.map_cons, List.nodup_cons]
        refine ⟨?_, ihq.2⟩
        intro hmem
        obtain ⟨a, ha, hac⟩ := List.mem_map.mp hmem
        have := (ihq.1 a ha).2
        apply this
        rw [hac]
        simp [mkBrandStagingRow]
    · simp only [Bool.not_eq_true] at hq
      simp only [hq, Bool.false_eq_true, if_false]
      exact ih k seen
/-
First-seen semantics: every appended staging row originates from the
first qualifying source row carrying its canonical name, and copies that
row's entered name and source transaction id.
-/
theorem intakeLoop_first_seen (uuid : Nat → String) (k : Nat)
    (seen : List Cell) (src : List ResolutionRow) :
    ∀ a ∈ intakeLoop uuid k seen src,
      ∃ i r, src.get? i = some r ∧ intakeQualifies seen r = true ∧
        a.canon = r.brandCanon ∧ a.entered = r.brandEntered ∧
        a.sourceTxnId = r.txnId ∧
        (∀ j r', j < i → src.get? j = some r' →
          r'.brandCanon = r.brandCanon → intakeQualifies seen r' = false) := by
  induction src generalizing k seen with
  | nil => simp [intakeLoop]
  | cons r0 rest ih =>
    intro a ha
    rw [intakeLoop_cons] at ha
    by_cases hq : intakeQualifies seen r0 = true
    · simp only [hq, if_pos, List.mem_cons] at ha
      rcases ha with rfl | ha
      · exact ⟨0, r0, rfl, hq, rfl, rfl, rfl, fun j r' hj => by omega⟩
      · obtain ⟨i, r, hget, hqr, hc, he, ht, hmin⟩ :=
          ih (k + 1) (r0.brandCanon :: seen) a ha
        have hqr' := hqr
        simp only [intakeQualifies, Bool.and_eq_true] at hqr'
        obtain ⟨-, hsn⟩ := hqr'
        have hnotin : r.brandCanon ∉ (r0.brandCanon :: seen) := by
          simpa using hsn
        have hne : r.brandCanon ≠ r0.brandCanon := fun hEq =>
          hnotin (by simp [hEq])
        have hqseen : intakeQualifies seen r = true := by
          rw [← intakeQualifies_cons_ne seen r0.brandCanon r hne]
          exact hqr
        refine ⟨i + 1, r, by simpa using hget, hqseen, hc, he, ht, ?_⟩
        intro j r' hj hget' hcanon'
        cases j with
        | zero =>
          simp only [List.get?_cons_zero, Option.some_inj] at hget'
          subst hget'
          exact absurd hcanon'.symm hne
        | succ j =>
          simp only [List.get?_cons_succ] at hget'
          have hmin' := hmin j r' (by omega) hget' hcanon'
          rw [← intakeQualifies_cons_ne seen r0.brandCanon r' (hcanon' ▸ hne)]
          exact hmin'
    · simp only [Bool.not_eq_true] at hq
      simp only [hq, Bool.false_eq_true, if_false] at ha
      obtain ⟨i, r, hget, hqr, hc, he, ht, hmin⟩ := ih k seen a ha
      refine ⟨i + 1, r, by simpa using hget, hqr, hc, he, ht, ?_⟩
      intro j r' hj hget' hcanon'
      cases j with
      | zero =>
        simp only [List.get?_cons_zero, Option.some_inj] at hget'
        subst hget'
        exact hq
      | succ j =>
        simp only [List.get?_cons_succ] at hget'
        exact hmin j r' (by omega) hget' hcanon'


/-- C2: after one run of the Staging Intake, at most one staging row per
distinct (truthy) canonical name, provided the pre-existing staging rows
have string canonical cells with pairwise-distinct truthy values; a source
row is appended only if its transaction id is present, its brand id is
absent, its canonical name is truthy and not already staged
(`intakeQualifies`), and not appended earlier in the run (the appended
canonical names are pairwise distinct); each appended row carries the
entered name of the first qualifying source row with its canonical name. -/
theorem staging_intake_dedup (uuid : Nat → String) (k : Nat)
    (stg : List BrandStagingRow) (src : List ResolutionRow)
    (hstr : ∀ r ∈ stg, ∃ v, r.canon = Cell.s v)
    (hnd : ((stg.map (fun r => r.canon)).filter truthy).Nodup) :
    ((((populateStagingLookupBrands uuid k stg src).map
        (fun r => r.canon)).filter truthy)).Nodup ∧
    ((intakeLoop uuid k (stagingCanonSet stg) src).map
        (fun a => a.canon)).Nodup ∧
    (∀ a ∈ intakeLoop uuid k (stagingCanonSet stg) src,
      ∃ i r, src.get? i = some r ∧
        intakeQualifies (stagingCanonSet stg) r = true ∧
        a.canon = r.brandCanon ∧ a.entered = r.brandEntered ∧
        a.sourceTxnId = r.txnId ∧
        (∀ j r', j < i → src.get? j = some r' →
          r'.brandCanon = r.brandCanon →
          intakeQualifies (stagingCanonSet stg) r' = false)) := by
  have hfresh := intakeLoop_canon_fresh uuid k (stagingCanonSet stg) src
  refine ⟨?_, hfresh.2, intakeLoop_first_seen uuid k (stagingCanonSet stg) src⟩
  unfold populateStagingLookupBrands
  rw [List.map_append, List.filter_append]
  rw [List.nodup_append]
  have happ : ((intakeLoop uuid k (stagingCanonSet stg) src).map
      (fun a => a.canon)).filter truthy =
      (intakeLoop uuid k (stagingCanonSet stg) src).map (fun a => a.canon) := by
    apply List.filter_eq_self.mpr
    intro c hc
    obtain ⟨a, ha, hac⟩ := List.mem_map.mp hc
    rw [← hac]
    exact (hfresh.1 a ha).1
  refine ⟨hnd, by rw [happ]; exact hfresh.2, ?_⟩
  intro c hc1 hc2
  rw [happ] at hc2
  obtain ⟨a, ha, hac⟩ := List.mem_map.mp hc2
  have hnot := (hfresh.1 a ha).2
  apply hnot
  rw [hac]
  have hc1' := List.mem_filter.mp hc1
  obtain ⟨r, hr, hrc⟩ := List.mem_map.mp hc1'.1
  obtain ⟨v, hv⟩ := hstr r hr
  unfold stagingCanonSet
  have : Cell.s (jsString r.canon) = c := by
    rw [hv, jsString, ← hv, hrc]
  rw [← this]
  apply List.mem_map.mpr
  refine ⟨r, ?_, rfl⟩
  apply List.mem_filter.mpr
  refine ⟨hr, ?_⟩
  rw [hrc]
  exact hc1'.2

/-- Witness for `staging_intake_dedup`: three source rows sharing the
canonical name `"Milk"` yield exactly one appended staging row carrying
the first row's entered name. -/
theorem staging_intake_dedup_witness :
    ((((populateStagingLookupBrands (fun k => "id" ++ toString k) 0 []
        [ { txnId := Cell.s "t1", brandId := Cell.s "",
            brandEntered := Cell.s "milk 1L", brandCanon := Cell.s "Milk" },
          { txnId := Cell.s "t2", brandId := Cell.s "",
            brandEntered := Cell.s "Milk (1L)", brandCanon := Cell.s "Milk" },
          { txnId := Cell.s "t3", brandId := Cell.s "",
            brandEntered := Cell.s "MILK-1L", brandCanon := Cell.s "Milk" } ]).map
        (fun r => r.canon)).filter truthy)).Nodup ∧
    (populateStagingLookupBrands (fun k => "id" ++ toString k) 0 []
        [ { txnId := Cell.s "t1", brandId := Cell.s "",
            brandEntered := Cell.s "milk 1L", brandCanon := Cell.s "Milk" },
          { txnId := Cell.s "t2", brandId := Cell.s "",
            brandEntered := Cell.s "Milk (1L)", brandCanon := Cell.s "Milk" },
          { txnId := Cell.s "t3", brandId := Cell.s "",
            brandEntered := Cell.s "MILK-1L", brandCanon := Cell.s "Milk" } ]).length = 1 ∧
    (populateStagingLookupBrands (fun k => "id" ++ toString k) 0 []
        [ { txnId := Cell.s "t1", brandId := Cell.s "",
            brandEntered := Cell.s "milk 1L", brandCanon := Cell.s "Milk" },
          { txnId := Cell.s "t2", brandId := Cell.s "",
            brandEntered := Cell.s "Milk (1L)", brandCanon := Cell.s "Milk" },
          { txnId := Cell.s "t3", brandId := Cell.s "",
            brandEntered := Cell.s "MILK-1L", brandCanon := Cell.s "Milk" } ]).map
      (fun r => r.entered) = [Cell.s "milk 1L"] := by
  refine ⟨(staging_intake_dedup (fun k => "id" ++ toString k) 0 []
      [ { txnId := Cell.s "t1", brandId := Cell.s "",
          brandEntered := Cell.s "milk 1L", brandCanon := Cell.s "Milk" },
        { txnId := Cell.s "t2", brandId := Cell.s "",
          brandEntered := Cell.s "Milk (1L)", brandCanon := Cell.s "Milk" },
        { txnId := Cell.s "t3", brandId := Cell.s "",
          brandEntered := Cell.s "MILK-1L", brandCanon := Cell.s "Milk" } ]
      (by intro r hr; cases hr) (by decide)).1, by decide, by decide⟩


/-! ### Identifier Backfiller
Embedding of `backfill_ProductIDs_Machine_LookupProducts`
(src/apps_script/v_1.3/13_backfill_ProductIDs_Machine_LookupProducts.js,
lines 50-104) and of the textually identical
`backfill_ItemIDs_Machine_LookupItems` (src/unnamed/part_004, lines
48-104, which differs only in the sheet and column names `Lookup_Items`,
`Item_Name`, `Item_ID_Machine`): copy the data rows, assign a fresh uuid
to every row with a truthy name and a falsy machine id, and write the
whole table back in one unconditional `range.setValues(output)` — except
when there are no data rows at all, where the script returns before any
write (source lines 55-65). -/

/-- A master-table data row: the name column, the machine-id column, and
the remaining (untouched) columns of the used range. -/
structure MasterRow where
  name : Cell
  machineId : Cell
  rest : List Cell
deriving DecidableEq, Repr

/-- The backfill row loop (source lines 82-102): `if (name && !prodId)`
assign `Utilities.getUuid()`.  Returns the mutated rows and
`generatedCount`. -/
def backfillMachineLoop (uuid : Nat → String) : Nat → List MasterRow →
    List MasterRow × Nat
  | _, [] => ([], 0)
  | k, r :: rest =>
    if truthy r.name && ¬ truthy r.machineId then
      let out := backfillMachineLoop uuid (k + 1) rest
      ({ r with machineId := Cell.s (uuid k) } :: out.1, out.2 + 1)
    else
      let out := backfillMachineLoop uuid k rest
      (r :: out.1, out.2)

/-- The outcome of one backfiller run: the table contents, the number of
generated identifiers, and the number of write operations issued against
the backfilled table. -/
structure BackfillResult where
  table : List MasterRow
  generated : Nat
  writeOps : Nat
deriving DecidableEq, Repr

/-- One run of `backfill_ProductIDs_Machine_LookupProducts` over the data
rows of `Lookup_Products`: with no data rows the script exits before
writing (lines 55-65); otherwise it runs the loop and issues the single
unconditional bulk `range.setValues(output)` (line 104). -/
def backfill_ProductIDs_Machine_LookupProducts (uuid : Nat → String)
    (k : Nat) (rows : List MasterRow) : BackfillResult :=
  if rows.isEmpty then { table := rows, generated := 0, writeOps := 0 }
  else
    let out := backfillMachineLoop uuid k rows
    { table := out.1, generated := out.2, writeOps := 1 }

/-- One run of `backfill_ItemIDs_Machine_LookupItems`
(src/unnamed/part_004): the same algorithm over `Lookup_Items`, with
`name` standing for `Item_Name` and `machineId` for `Item_ID_Machine`. -/
def backfill_ItemIDs_Machine_LookupItems (uuid : Nat → String)
    (k : Nat) (rows : List MasterRow) : BackfillResult :=
  backfill_ProductIDs_Machine_LookupProducts uuid k rows

/-- After a backfill pass with non-empty uuids, no row has a truthy name
together with a falsy machine id. -/
theorem backfillMachineLoop_filled (uuid : Nat → String)
    (huuid : ∀ m, uuid m ≠ "") (k : Nat) (rows : List MasterRow) :
    ∀ r ∈ (backfillMachineLoop uuid k rows).1,
      ¬ (truthy r.name = true ∧ truthy r.machineId = false) := by
  induction rows generalizing k with
  | nil => simp [backfillMachineLoop]
  | cons r0 rest ih =>
    intro r hr
    unfold backfillMachineLoop at hr
    by_cases h : truthy r0.name && ¬ truthy r0.machineId
    · rw [if_pos h] at hr
      simp only [List.mem_cons] at hr
      rcases hr with rfl | hr
      · intro hcon
        have : truthy (Cell.s (uuid k)) = false := hcon.2
        simp [truthy] at this
        exact huuid k this
      · exact ih (k + 1) r hr
    · rw [if_neg h] at hr
      simp only [List.mem_cons] at hr
      rcases hr with rfl | hr
      · intro hcon
        apply h
        simp [hcon.1, hcon.2]
      · exact ih k r hr

/-- On a table where no row qualifies, the backfill loop is the identity
and generates nothing. -/
theorem backfillMachineLoop_inert (uuid : Nat → String) (k : Nat)
    (rows : List MasterRow)
    (h : ∀ r ∈ rows, ¬ (truthy r.name = true ∧ truthy r.machineId = false)) :
    backfillMachineLoop uuid k rows = (rows, 0) := by
  induction rows generalizing k with
  | nil => rfl
  | cons r0 rest ih =>
    have h0 : ¬ (truthy r0.name && ¬ truthy r0.machineId) = true := by
      intro hcon
      simp only [Bool.and_eq_true, decide_eq_true_eq, Bool.not_eq_true] at hcon
      exact h r0 (by simp) hcon
    unfold backfillMachineLoop
    rw [if_neg h0, ih k (fun r hr => h r (by simp [hr]))]


/-- The backfill loop preserves the number of rows. -/
theorem backfillMachineLoop_length (uuid : Nat → String) (k : Nat)
    (rows : List MasterRow) :
    (backfillMachineLoop uuid k rows).1.length = rows.length := by
  induction rows generalizing k with
  | nil => rfl
  | cons r0 rest ih =>
    unfold backfillMachineLoop
    by_cases h : truthy r0.name && ¬ truthy r0.machineId
    · rw [if_pos h]
      simp [ih (k + 1)]
    · rw [if_neg h]
      simp [ih k]

/-- C3 (amended): running the Identifier Backfiller twice yields the same
final identifier assignments as running it once — the second run assigns
zero identifiers — but on a non-empty table the second run still issues
its one unconditional bulk write-back (of unchanged data); only the
empty-table early exit skips the write.  Stated for both the
`Lookup_Products` and the `Lookup_Items` variant. -/
theorem backfill_idempotence (uuid uuid' : Nat → String)
    (huuid : ∀ m, uuid m ≠ "") (k k' : Nat) (rows : List MasterRow) :
    ((backfill_ProductIDs_Machine_LookupProducts uuid' k'
        (backfill_ProductIDs_Machine_LookupProducts uuid k rows).table).table =
      (backfill_ProductIDs_Machine_LookupProducts uuid k rows).table) ∧
    ((backfill_ProductIDs_Machine_LookupProducts uuid' k'
        (backfill_ProductIDs_Machine_LookupProducts uuid k rows).table).generated = 0) ∧
    (rows ≠ [] →
      (backfill_ProductIDs_Machine_LookupProducts uuid' k'
        (backfill_ProductIDs_Machine_LookupProducts uuid k rows).table).writeOps = 1) ∧
    ((backfill_ItemIDs_Machine_LookupItems uuid' k'
        (backfill_ItemIDs_Machine_LookupItems uuid k rows).table).table =
      (backfill_ItemIDs_Machine_LookupItems uuid k rows).table) ∧
    ((backfill_ItemIDs_Machine_LookupItems uuid' k'
        (backfill_ItemIDs_Machine_LookupItems uuid k rows).table).generated = 0) := by
  by_cases hempty : rows.isEmpty
  · have : rows = [] := by
      cases rows with
      | nil => rfl
      | cons a l => simp at hempty
    subst this
    refine ⟨?_, ?_, ?_, ?_, ?_⟩ <;>
      simp [backfill_ProductIDs_Machine_LookupProducts,
        backfill_ItemIDs_Machine_LookupItems]
  · have hrun1 : backfill_ProductIDs_Machine_LookupProducts uuid k rows =
        { table := (backfillMachineLoop uuid k rows).1,
          generated := (backfillMachineLoop uuid k rows).2, writeOps := 1 } := by
      unfold backfill_ProductIDs_Machine_LookupProducts
      rw [if_neg hempty]
    have hne1 : ((backfillMachineLoop uuid k rows).1).isEmpty = false := by
      have hl := backfillMachineLoop_length uuid k rows
      cases hout : (backfillMachineLoop uuid k rows).1 with
      | nil =>
        rw [hout] at hl
        cases rows with
        | nil => simp at hempty
        | cons a l => simp at hl
      | cons a l => rfl
    have hinert := backfillMachineLoop_inert uuid' k'
      (backfillMachineLoop uuid k rows).1
      (backfillMachineLoop_filled uuid huuid k rows)
    have hrun2 : backfill_ProductIDs_Machine_LookupProducts uuid' k'
        (backfillMachineLoop uuid k rows).1 =
        { table := (backfillMachineLoop uuid k rows).1,
          generated := 0, writeOps := 1 } := by
      unfold backfill_ProductIDs_Machine_LookupProducts
      rw [if_neg (by rw [hne1]; exact Bool.false_ne_true), hinert]
    unfold backfill_ItemIDs_Machine_LookupItems
    rw [hrun1]
    simp [hrun2]

/-- Witness for `backfill_idempotence` on a one-row table whose row gets
an identifier in the first run. -/
theorem backfill_idempotence_witness :
    ((backfill_ProductIDs_Machine_LookupProducts (fun _ => "u") 0
        (backfill_ProductIDs_Machine_LookupProducts (fun _ => "u") 0
          [{ name := Cell.s "A", machineId := Cell.s "", rest := [] }]).table).table =
      (backfill_ProductIDs_Machine_LookupProducts (fun _ => "u") 0
          [{ name := Cell.s "A", machineId := Cell.s "", rest := [] }]).table) ∧
    ((backfill_ProductIDs_Machine_LookupProducts (fun _ => "u") 0
        (backfill_ProductIDs_Machine_LookupProducts (fun _ => "u") 0
          [{ name := Cell.s "A", machineId := Cell.s "", rest := [] }]).table).generated = 0) ∧
    ((backfill_ProductIDs_Machine_LookupProducts (fun _ => "u") 0
        (backfill_ProductIDs_Machine_LookupProducts (fun _ => "u") 0
          [{ name := Cell.s "A", machineId := Cell.s "", rest := [] }]).table).writeOps = 1) := by
  have h := backfill_idempotence (fun _ => "u") (fun _ => "u")
    (by intro m; simp) 0 0
    [{ name := Cell.s "A", machineId := Cell.s "", rest := [] }]
  exact ⟨h.1, h.2.1, h.2.2.1 (by simp)⟩

/-- Counterexample to C3 as stated: on a one-row table the second
backfiller run still issues one (unconditional) bulk write operation to
the store, not zero. -/
theorem backfill_counterexample :
    (backfill_ProductIDs_Machine_LookupProducts (fun _ => "u") 0
        (backfill_ProductIDs_Machine_LookupProducts (fun _ => "u") 0
          [{ name := Cell.s "A", machineId := Cell.s "", rest := [] }]).table).writeOps =
      1 := by
  decide


/-! ### Orphan Reconciler
Embedding of `cleanupOrphan_BrandIDs_Machine_LookupBrands`
(src/apps_script/v_1.3/10_cleanup_OrphanBrandIDs_Machine_LookupBrands.js,
lines 82-103) and of the textually identical
`cleanupOrphan_ItemIDs_Machine_LookupItems` (src/unnamed/part_003, lines
204-225, differing only in the sheet and column names): for every data
row, `if (!name && brandId)` clear the machine-id cell; all other cells
are untouched. -/

/-- The cleanup loop body for one master row (source lines 87-100). -/
def cleanupOrphanRow (r : MasterRow) : MasterRow :=
  if ¬ truthy r.name && truthy r.machineId
  then { r with machineId := Cell.s "" }
  else r

/-- One run of `cleanupOrphan_BrandIDs_Machine_LookupBrands` over the data
rows of `Lookup_Brands` (`name` = `Brand_Name`,
`machineId` = `Brand_ID_Machine`). -/
def cleanupOrphan_BrandIDs_Machine_LookupBrands
    (rows : List MasterRow) : List MasterRow :=
  rows.map cleanupOrphanRow

/-- One run of `cleanupOrphan_ItemIDs_Machine_LookupItems` over the data
rows of `Lookup_Items` (`name` = `Item_Name`,
`machineId` = `Item_ID_Machine`): the same algorithm. -/
def cleanupOrphan_ItemIDs_Machine_LookupItems
    (rows : List MasterRow) : List MasterRow :=
  rows.map cleanupOrphanRow

/-- After the cleanup loop body, a truthy machine id implies a truthy
name; rows with a truthy name are untouched; an orphan row comes out with
an empty machine-id cell and all other cells unchanged. -/
theorem truthy_empty_cell : truthy (Cell.s "") = false := rfl

theorem cleanupOrphanRow_spec (r : MasterRow) :
    (truthy (cleanupOrphanRow r).machineId = true →
      truthy (cleanupOrphanRow r).name = true) ∧
    (truthy r.name = true → cleanupOrphanRow r = r) ∧
    (truthy r.name = false → truthy r.machineId = true →
      cleanupOrphanRow r = { r with machineId := Cell.s "" }) := by
  unfold cleanupOrphanRow
  by_cases h1 : truthy r.name <;> by_cases h2 : truthy r.machineId <;>
    simp [h1, h2, truthy_empty_cell]

/-- C4: after one run of the Orphan Reconciler on a master table
(`Lookup_Brands` or `Lookup_Items`), every row satisfies "machine id
present implies name present"; a row with a falsy name and a truthy
machine id has its machine id cleared to the empty cell (and nothing else
changed); rows with a truthy name are unchanged. -/
theorem orphan_invariant (rows : List MasterRow) :
    (∀ r ∈ cleanupOrphan_BrandIDs_Machine_LookupBrands rows,
      truthy r.machineId = true → truthy r.name = true) ∧
    (∀ i r, rows.get? i = some r → truthy r.name = false →
      truthy r.machineId = true →
      (cleanupOrphan_BrandIDs_Machine_LookupBrands rows).get? i =
        some { r with machineId := Cell.s "" }) ∧
    (∀ i r, rows.get? i = some r → truthy r.name = true →
      (cleanupOrphan_BrandIDs_Machine_LookupBrands rows).get? i = some r) ∧
    (∀ r ∈ cleanupOrphan_ItemIDs_Machine_LookupItems rows,
      truthy r.machineId = true → truthy r.name = true) ∧
    (∀ i r, rows.get? i = some r → truthy r.name = false →
      truthy r.machineId = true →
      (cleanupOrphan_ItemIDs_Machine_LookupItems rows).get? i =
        some { r with machineId := Cell.s "" }) ∧
    (∀ i r, rows.get? i = some r → truthy r.name = true →
      (cleanupOrphan_ItemIDs_Machine_LookupItems rows).get? i = some r) := by
  have hmem : ∀ r' ∈ rows.map cleanupOrphanRow,
      truthy r'.machineId = true → truthy r'.name = true := by
    intro r' hr'
    obtain ⟨r, _, rfl⟩ := List.mem_map.mp hr'
    exact (cleanupOrphanRow_spec r).1
  have horphan : ∀ i r, rows.get? i = some r → truthy r.name = false →
      truthy r.machineId = true →
      (rows.map cleanupOrphanRow).get? i =
        some { r with machineId := Cell.s "" } := by
    intro i r h hn hm
    rw [List.get?_map, h, Option.map_some']
    rw [(cleanupOrphanRow_spec r).2.2 hn hm]
  have huntouched : ∀ i r, rows.get? i = some r → truthy r.name = true →
      (rows.map cleanupOrphanRow).get? i = some r := by
    intro i r h hn
    rw [List.get?_map, h, Option.map_some']
    rw [(cleanupOrphanRow_spec r).2.1 hn]
  exact ⟨hmem, horphan, huntouched, hmem, horphan, huntouched⟩

/-- Witness for `orphan_invariant`: a table with one orphan row
(`name=""`, `machine_id="X"`) and one intact row. -/
theorem orphan_invariant_witness :
    ((cleanupOrphan_BrandIDs_Machine_LookupBrands
        [ { name := Cell.s "", machineId := Cell.s "X", rest := [] },
          { name := Cell.s "Acme", machineId := Cell.s "id1", rest := [] } ]).get? 0 =
      some { name := Cell.s "", machineId := Cell.s "", rest := [] }) ∧
    ((cleanupOrphan_BrandIDs_Machine_LookupBrands
        [ { name := Cell.s "", machineId := Cell.s "X", rest := [] },
          { name := Cell.s "Acme", machineId := Cell.s "id1", rest := [] } ]).get? 1 =
      some { name := Cell.s "Acme", machineId := Cell.s "id1", rest := [] }) := by
  have h := orphan_invariant
    [ { name := Cell.s "", machineId := Cell.s "X", rest := [] },
      { name := Cell.s "Acme", machineId := Cell.s "id1", rest := [] } ]
  exact ⟨h.2.1 0 { name := Cell.s "", machineId := Cell.s "X", rest := [] }
      rfl (by decide) (by decide),
    h.2.2.1 1 { name := Cell.s "Acme", machineId := Cell.s "id1", rest := [] }
      rfl (by decide)⟩


/-! ### Strict transaction cleanup
Embedding of `cleanupInvalidTransactions_TransactionRaw`
(src/apps_script/v_1.3/02_cleanup_InvalidTransactions_TransactionRaw.js,
lines 101-145): per row, count the prerequisite cells that are neither
`''` nor `null` (a `getValues()` cell is never `null`, so the test is
"not the empty string"); when `0 < filledCount < 5` the entire row — all
columns of the used range — is overwritten with empty strings. -/

/-- A data row of `Transaction_Raw`: the five prerequisite natural-key
columns, the machine transaction id, and the remaining columns of the
used range (source lines 85-92). -/
structure TxnRawRow where
  trxDate : Cell
  item : Cell
  qtyVal : Cell
  qtyUnit : Cell
  price : Cell
  txnId : Cell
  rest : List Cell
deriving DecidableEq, Repr

/-- `prereqValues.filter(v => v !== '' && v !== null).length`
(source lines 108-117). -/
def filledCount (r : TxnRawRow) : Nat :=
  ([r.trxDate, r.item, r.qtyVal, r.qtyUnit, r.price].filter
    (fun v => v ≠ Cell.s "")).length

/-- `output[i] = new Array(r.length).fill('')` (source line 125): every
cell of the row becomes the empty string. -/
def clearTxnRow (r : TxnRawRow) : TxnRawRow :=
  { trxDate := Cell.s "", item := Cell.s "", qtyVal := Cell.s "",
    qtyUnit := Cell.s "", price := Cell.s "", txnId := Cell.s "",
    rest := List.replicate r.rest.length (Cell.s "") }

/-- One run of `cleanupInvalidTransactions_TransactionRaw` over the data
rows of `Transaction_Raw` (source lines 103-145). -/
def cleanupInvalidTransactions_TransactionRaw
    (rows : List TxnRawRow) : List TxnRawRow :=
  rows.map (fun r =>
    if 0 < filledCount r ∧ filledCount r < 5 then clearTxnRow r else r)

/-- C5: a transaction row is entirely cleared exactly when
`0 < filledCount < 5`; fully empty (`filledCount = 0`) and fully filled
(`filledCount = 5`) rows are untouched. -/
theorem partial_fill_boundary (rows : List TxnRawRow) :
    (∀ i r, rows.get? i = some r → 0 < filledCount r → filledCount r < 5 →
      (cleanupInvalidTransactions_TransactionRaw rows).get? i =
        some (clearTxnRow r)) ∧
    (∀ i r, rows.get? i = some r → filledCount r = 0 →
      (cleanupInvalidTransactions_TransactionRaw rows).get? i = some r) ∧
    (∀ i r, rows.get? i = some r → filledCount r = 5 →
      (cleanupInvalidTransactions_TransactionRaw rows).get? i = some r) ∧
    (∀ r : TxnRawRow, (clearTxnRow r).trxDate = Cell.s "" ∧
      (clearTxnRow r).item = Cell.s "" ∧ (clearTxnRow r).qtyVal = Cell.s "" ∧
      (clearTxnRow r).qtyUnit = Cell.s "" ∧ (clearTxnRow r).price = Cell.s "" ∧
      (clearTxnRow r).txnId = Cell.s "" ∧
      ∀ c ∈ (clearTxnRow r).rest, c = Cell.s "") := by
  refine ⟨?_, ?_, ?_, ?_⟩
  · intro i r h h0 h5
    unfold cleanupInvalidTransactions_TransactionRaw
    rw [List.get?_map, h, Option.map_some']
    rw [if_pos ⟨h0, h5⟩]
  · intro i r h h0
    unfold cleanupInvalidTransactions_TransactionRaw
    rw [List.get?_map, h, Option.map_some']
    rw [if_neg (by omega)]
  · intro i r h h5
    unfold cleanupInvalidTransactions_TransactionRaw
    rw [List.get?_map, h, Option.map_some']
    rw [if_neg (by omega)]
  · intro r
    refine ⟨rfl, rfl, rfl, rfl, rfl, rfl, ?_⟩
    intro c hc
    exact List.eq_of_mem_replicate hc

/-- Witness for `partial_fill_boundary`: a row with exactly 3 of 5
prerequisite fields filled is cleared; a fully empty row and a fully
filled row are untouched. -/
theorem partial_fill_boundary_witness :
    ((cleanupInvalidTransactions_TransactionRaw
      [ { trxDate := Cell.s "2024-01-01", item := Cell.s "Milk",
          qtyVal := Cell.n 2, qtyUnit := Cell.s "", price := Cell.s "",
          txnId := Cell.s "t1", rest := [Cell.s "x"] },
        { trxDate := Cell.s "", item := Cell.s "", qtyVal := Cell.s "",
          qtyUnit := Cell.s "", price := Cell.s "", txnId := Cell.s "",
          rest := [] },
        { trxDate := Cell.s "2024-01-02", item := Cell.s "Eggs",
          qtyVal := Cell.n 12, qtyUnit := Cell.s "pcs", price := Cell.n 5,
          txnId := Cell.s "", rest := [] } ]).get? 0 =
      some { trxDate := Cell.s "", item := Cell.s "", qtyVal := Cell.s "",
             qtyUnit := Cell.s "", price := Cell.s "", txnId := Cell.s "",
             rest := [Cell.s ""] }) ∧
    ((cleanupInvalidTransactions_TransactionRaw
      [ { trxDate := Cell.s "2024-01-01", item := Cell.s "Milk",
          qtyVal := Cell.n 2, qtyUnit := Cell.s "", price := Cell.s "",
          txnId := Cell.s "t1", rest := [Cell.s "x"] },
        { trxDate := Cell.s "", item := Cell.s "", qtyVal := Cell.s "",
          qtyUnit := Cell.s "", price := Cell.s "", txnId := Cell.s "",
          rest := [] },
        { trxDate := Cell.s "2024-01-02", item := Cell.s "Eggs",
          qtyVal := Cell.n 12, qtyUnit := Cell.s "pcs", price := Cell.n 5,
          txnId := Cell.s "", rest := [] } ]).get? 1 =
      some { trxDate := Cell.s "", item := Cell.s "", qtyVal := Cell.s "",
             qtyUnit := Cell.s "", price := Cell.s "", txnId := Cell.s "",
             rest := [] }) ∧
    ((cleanupInvalidTransactions_TransactionRaw
      [ { trxDate := Cell.s "2024-01-01", item := Cell.s "Milk",
          qtyVal := Cell.n 2, qtyUnit := Cell.s "", price := Cell.s "",
          txnId := Cell.s "t1", rest := [Cell.s "x"] },
        { trxDate := Cell.s "", item := Cell.s "", qtyVal := Cell.s "",
          qtyUnit := Cell.s "", price := Cell.s "", txnId := Cell.s "",
          rest := [] },
        { trxDate := Cell.s "2024-01-02", item := Cell.s "Eggs",
          qtyVal := Cell.n 12, qtyUnit := Cell.s "pcs", price := Cell.n 5,
          txnId := Cell.s "", rest := [] } ]).get? 2 =
      some { trxDate := Cell.s "2024-01-02", item := Cell.s "Eggs",
             qtyVal := Cell.n 12, qtyUnit := Cell.s "pcs", price := Cell.n 5,
             txnId := Cell.s "", rest := [] }) := by
  have h := partial_fill_boundary
    [ { trxDate := Cell.s "2024-01-01", item := Cell.s "Milk",
        qtyVal := Cell.n 2, qtyUnit := Cell.s "", price := Cell.s "",
        txnId := Cell.s "t1", rest := [Cell.s "x"] },
      { trxDate := Cell.s "", item := Cell.s "", qtyVal := Cell.s "",
        qtyUnit := Cell.s "", price := Cell.s "", txnId := Cell.s "",
        rest := [] },
      { trxDate := Cell.s "2024-01-02", item := Cell.s "Eggs",
        qtyVal := Cell.n 12, qtyUnit := Cell.s "pcs", price := Cell.n 5,
        txnId := Cell.s "", rest := [] } ]
  refine ⟨?_, ?_, ?_⟩
  · have hc := h.1 0 _ rfl (by decide) (by decide)
    simpa [clearTxnRow] using hc
  · exact h.2.1 1 _ rfl (by decide)
  · exact h.2.2.1 2 _ rfl (by decide)


/-! ### Human-identifier backfiller
Embedding of `generateItemID_H` (src/unnamed/part_002, lines 1-68): read
the `ITEM` counter from `Counter_Control` once (the argument `C` is the
value of `Number(ctrlData[ctrlRow][IDX_CTRL.total]) || 0`), then for
every `Lookup_Items` data row with a truthy `Item_ID_M` and a falsy
`Item_ID_H`, advance the counter and write
`'ITEM-' + String(counter).padStart(6, '0')` into the `Item_ID_H` cell
(one `setValue` per assigned row); finally write the counter back to
`Counter_Control` once, and only if at least one row was assigned. -/

/-- A data row of `Lookup_Items` as used by `generateItemID_H`
(columns `Item_ID_M` and `Item_ID_H`, source lines 42-45). -/
structure ItemHRow where
  itemIdM : Cell
  itemIdH : Cell
deriving DecidableEq, Repr

/-- JavaScript `String(n).padStart(w, '0')` for a natural number. -/
def zeroPad (n : Nat) (w : Nat) : String :=
  let s := toString n
  if w ≤ s.length then s
  else String.mk (List.replicate (w - s.length) '0') ++ s

/-- The gating predicate of the assignment loop (source line 56):
`r[IDX_ITEMS.itemIdM] && !r[IDX_ITEMS.itemIdH]`. -/
def itemHQualifies (r : ItemHRow) : Bool :=
  truthy r.itemIdM && ¬ truthy r.itemIdH

/-- The assignment loop (source lines 53-62), threading the in-memory
counter.  Returns the rows after the per-cell writes, the final counter
value, and the number of `setValue` calls issued against `Lookup_Items`. -/
def generateItemID_H_loop : Nat → List ItemHRow → List ItemHRow × Nat × Nat
  | ctr, [] => ([], ctr, 0)
  | ctr, r :: rest =>
    if itemHQualifies r then
      let out := generateItemID_H_loop (ctr + 1) rest
      ({ r with itemIdH := Cell.s ("ITEM-" ++ zeroPad (ctr + 1) 6) } :: out.1,
        out.2.1, out.2.2 + 1)
    else
      let out := generateItemID_H_loop ctr rest
      (r :: out.1, out.2.1, out.2.2)

/-- The outcome of one `generateItemID_H` run: the `Lookup_Items` rows,
the single optional write-back of the `Counter_Control` cell, and the
number of per-cell writes to `Lookup_Items`. -/
structure GenItemIDResult where
  rows : List ItemHRow
  ctrlWrite : Option Nat
  cellWrites : Nat
deriving DecidableEq, Repr

/-- One run of `generateItemID_H` starting from counter value `C`: with
no data rows the script returns before any write (source line 37);
otherwise it runs the loop and persists the counter exactly when `wrote`
is set (source lines 64-67). -/
def generateItemID_H (C : Nat) (rows : List ItemHRow) : GenItemIDResult :=
  if rows.isEmpty then { rows := rows, ctrlWrite := none, cellWrites := 0 }
  else
    let out := generateItemID_H_loop C rows
    { rows := out.1,
      ctrlWrite := if 0 < out.2.2 then some out.2.1 else none,
      cellWrites := out.2.2 }

/-- The loop's final counter is the start value plus the number of
qualifying rows, which is also the number of per-cell writes. -/
theorem generateItemID_H_loop_counter (C : Nat) (rows : List ItemHRow) :
    (generateItemID_H_loop C rows).2.1 = C + rows.countP itemHQualifies ∧
    (generateItemID_H_loop C rows).2.2 = rows.countP itemHQualifies := by
  induction rows generalizing C with
  | nil => simp [generateItemID_H_loop]
  | cons r0 rest ih =>
    unfold generateItemID_H_loop
    by_cases h : itemHQualifies r0
    · rw [if_pos h]
      simp only [List.countP_cons, h, if_pos]
      refine ⟨?_, ?_⟩
      · have h1 := (ih (C + 1)).1
        omega
      · have h2 := (ih (C + 1)).2
        omega
    · rw [if_neg h]
      have hq : itemHQualifies r0 = false := by simpa using h
      simp only [List.countP_cons, hq, Bool.false_eq_true, if_false]
      refine ⟨?_, ?_⟩
      · have h1 := (ih C).1
        omega
      · have h2 := (ih C).2
        omega

/-- A qualifying row at position `i` receives the identifier for the
counter value `C + 1 +` (number of qualifying rows before it); a
non-qualifying row is untouched. -/
theorem generateItemID_H_loop_rows (C : Nat) (rows : List ItemHRow) :
    (∀ i r, rows.get? i = some r → itemHQualifies r = true →
      (generateItemID_H_loop C rows).1.get? i =
        some { r with itemIdH := Cell.s ("ITEM-" ++
          zeroPad (C + 1 + (rows.take i).countP itemHQualifies) 6) }) ∧
    (∀ i r, rows.get? i = some r → itemHQualifies r = false →
      (generateItemID_H_loop C rows).1.get? i = some r) := by
  induction rows generalizing C with
  | nil => simp
  | cons r0 rest ih =>
    constructor
    · intro i r h hq
      cases i with
      | zero =>
        simp only [List.get?_cons_zero, Option.some_inj] at h
        subst h
        unfold generateItemID_H_loop
        rw [if_pos hq]
        simp
      | succ i =>
        simp only [List.get?_cons_succ] at h
        unfold generateItemID_H_loop
        by_cases h0 : itemHQualifies r0
        · rw [if_pos h0]
          have hrec := (ih (C + 1)).1 i r h hq
          simp only [List.get?_cons_succ, List.take_succ_cons,
            List.countP_cons, h0, if_pos]
          rw [hrec]
          have harith : C + 1 + 1 + (rest.take i).countP itemHQualifies =
              C + 1 + ((rest.take i).countP itemHQualifies + 1) := by omega
          rw [harith]
        · rw [if_neg h0]
          have hq0 : itemHQualifies r0 = false := by simpa using h0
          have hrec := (ih C).1 i r h hq
          simp only [List.get?_cons_succ, List.take_succ_cons,
            List.countP_cons, hq0]
          rw [hrec]
          simp
    · intro i r h hq
      cases i with
      | zero =>
        simp only [List.get?_cons_zero, Option.some_inj] at h
        subst h
        unfold generateItemID_H_loop
        rw [if_neg (by simp [hq])]
        simp
      | succ i =>
        simp only [List.get?_cons_succ] at h
        unfold generateItemID_H_loop
        by_cases h0 : itemHQualifies r0
        · rw [if_pos h0]
          simpa using (ih (C + 1)).2 i r h hq
        · rw [if_neg h0]
          simpa using (ih C).2 i r h hq


/-- C7: starting from counter value `C` with `k` qualifying rows, the
human-ID backfiller assigns `'ITEM-' + zeroPad(C+1), …, zeroPad(C+k)` in
row order (each qualifying row gets the identifier for `C + 1 +` the
number of qualifying rows above it), leaves non-qualifying rows
untouched, issues one per-cell write per assignment, and persists the
final counter value `C + k` exactly when `k > 0` (zero qualifying rows
leave the counter record unwritten). -/
theorem human_id_monotonicity (C : Nat) (rows : List ItemHRow) :
    ((generateItemID_H C rows).ctrlWrite =
      if 0 < rows.countP itemHQualifies
      then some (C + rows.countP itemHQualifies) else none) ∧
    ((generateItemID_H C rows).cellWrites = rows.countP itemHQualifies) ∧
    (∀ i r, rows.get? i = some r → itemHQualifies r = true →
      (generateItemID_H C rows).rows.get? i =
        some { r with itemIdH := Cell.s ("ITEM-" ++
          zeroPad (C + 1 + (rows.take i).countP itemHQualifies) 6) }) ∧
    (∀ i r, rows.get? i = some r → itemHQualifies r = false →
      (generateItemID_H C rows).rows.get? i = some r) := by
  by_cases hempty : rows.isEmpty
  · have : rows = [] := by
      cases rows with
      | nil => rfl
      | cons a l => simp at hempty
    subst this
    refine ⟨?_, ?_, ?_, ?_⟩ <;> simp [generateItemID_H]
  · have hloop := generateItemID_H_loop_counter C rows
    have hrows := generateItemID_H_loop_rows C rows
    have hrun : generateItemID_H C rows =
        { rows := (generateItemID_H_loop C rows).1,
          ctrlWrite := if 0 < (generateItemID_H_loop C rows).2.2
            then some (generateItemID_H_loop C rows).2.1 else none,
          cellWrites := (generateItemID_H_loop C rows).2.2 } := by
      unfold generateItemID_H
      rw [if_neg hempty]
    rw [hrun]
    refine ⟨?_, hloop.2, hrows.1, hrows.2⟩
    rw [hloop.1, hloop.2]

/-- Witness for `human_id_monotonicity`: counter 41 and two qualifying
rows yield `ITEM-000042` then `ITEM-000043` and persist 43. -/
theorem human_id_monotonicity_witness :
    ((generateItemID_H 41
      [ { itemIdM := Cell.s "m1", itemIdH := Cell.s "" },
        { itemIdM := Cell.s "m2", itemIdH := Cell.s "" } ]).ctrlWrite =
      some 43) ∧
    ((generateItemID_H 41
      [ { itemIdM := Cell.s "m1", itemIdH := Cell.s "" },
        { itemIdM := Cell.s "m2", itemIdH := Cell.s "" } ]).cellWrites = 2) ∧
    ((generateItemID_H 41
      [ { itemIdM := Cell.s "m1", itemIdH := Cell.s "" },
        { itemIdM := Cell.s "m2", itemIdH := Cell.s "" } ]).rows.get? 0 =
      some { itemIdM := Cell.s "m1", itemIdH := Cell.s "ITEM-000042" }) ∧
    ((generateItemID_H 41
      [ { itemIdM := Cell.s "m1", itemIdH := Cell.s "" },
        { itemIdM := Cell.s "m2", itemIdH := Cell.s "" } ]).rows.get? 1 =
      some { itemIdM := Cell.s "m2", itemIdH := Cell.s "ITEM-000043" }) := by
  have h := human_id_monotonicity 41
    [ { itemIdM := Cell.s "m1", itemIdH := Cell.s "" },
      { itemIdM := Cell.s "m2", itemIdH := Cell.s "" } ]
  refine ⟨?_, ?_, ?_, ?_⟩
  · rw [h.1]
    decide
  · rw [h.2.1]
    decide
  · rw [h.2.2.1 0 _ rfl (by decide)]
    decide
  · rw [h.2.2.1 1 _ rfl (by decide)]
    decide


/-! ### Transaction-id backfiller
Embedding of `backfillTxnIDs_TransactionRaw` (src/unnamed/part_009,
lines 41-170): skip rows that are not fully valid or already have a
`Txn_ID_Machine`; for each remaining row, generate a uuid and write it
into the `Txn_ID_Machine` cell with an individual
`sh.getRange(rowNum, …).setValue(machineId)` — one write operation per
generated id, inside the loop (source line 126), not one bulk write. -/

/-- `isValidTxn` (source lines 106-111): all five prerequisite cells
truthy. -/
def txnValid (r : TxnRawRow) : Bool :=
  truthy r.trxDate && truthy r.item && truthy r.qtyVal &&
    truthy r.qtyUnit && truthy r.price

/-- The backfill loop (source lines 101-142).  Returns the rows after the
per-cell writes and the number of `setValue` calls issued against
`Transaction_Raw`. -/
def backfillTxnIDs_loop (uuid : Nat → String) : Nat → List TxnRawRow →
    List TxnRawRow × Nat
  | _, [] => ([], 0)
  | k, r :: rest =>
    if ¬ txnValid r then
      let out := backfillTxnIDs_loop uuid k rest
      (r :: out.1, out.2)
    else if truthy r.txnId then
      let out := backfillTxnIDs_loop uuid k rest
      (r :: out.1, out.2)
    else
      let out := backfillTxnIDs_loop uuid (k + 1) rest
      ({ r with txnId := Cell.s (uuid k) } :: out.1, out.2 + 1)

/-- One run of `backfillTxnIDs_TransactionRaw` over the data rows of
`Transaction_Raw` (the empty-body early return at source lines 65-76
issues no write). -/
def backfillTxnIDs_TransactionRaw (uuid : Nat → String) (k : Nat)
    (rows : List TxnRawRow) : List TxnRawRow × Nat :=
  if rows.isEmpty then (rows, 0) else backfillTxnIDs_loop uuid k rows

/-- The transaction-id backfiller issues exactly one write operation per
valid id-less row. -/
theorem backfillTxnIDs_loop_writes (uuid : Nat → String) (k : Nat)
    (rows : List TxnRawRow) :
    (backfillTxnIDs_loop uuid k rows).2 =
      rows.countP (fun r => txnValid r && ¬ truthy r.txnId) := by
  induction rows generalizing k with
  | nil => simp [backfillTxnIDs_loop]
  | cons r0 rest ih =>
    unfold backfillTxnIDs_loop
    by_cases h1 : txnValid r0
    · by_cases h2 : truthy r0.txnId
      · rw [if_neg (by simp [h1]), if_pos h2]
        simp only [List.countP_cons, h1, h2]
        have := ih k
        simp_all
      · rw [if_neg (by simp [h1]), if_neg h2]
        simp only [List.countP_cons, h1, h2]
        have := ih (k + 1)
        simp_all
    · rw [if_pos (by simp [h1])]
      simp only [List.countP_cons]
      have hb : (txnValid r0 && ¬ truthy r0.txnId) = false := by
        simp [h1]
      rw [hb]
      have := ih k
      simp_all

/-- C9 (amended): the lookup-table machine-id backfillers
(`backfill_ProductIDs_Machine_LookupProducts`,
`backfill_ItemIDs_Machine_LookupItems`) issue at most one write operation
per run — the single bulk write-back — but the transaction-id backfiller
and the human-id generator write cell-by-cell: one `setValue` per
assigned row (plus, for `generateItemID_H`, one counter write when
anything was assigned). -/
theorem single_bulk_write (uuid : Nat → String) (k : Nat)
    (mrows : List MasterRow) (trows : List TxnRawRow)
    (irows : List ItemHRow) (C : Nat) :
    ((backfill_ProductIDs_Machine_LookupProducts uuid k mrows).writeOps ≤ 1) ∧
    ((backfill_ItemIDs_Machine_LookupItems uuid k mrows).writeOps ≤ 1) ∧
    ((backfillTxnIDs_TransactionRaw uuid k trows).2 =
      trows.countP (fun r => txnValid r && ¬ truthy r.txnId)) ∧
    ((generateItemID_H C irows).cellWrites = irows.countP itemHQualifies) := by
  refine ⟨?_, ?_, ?_, ?_⟩
  · unfold backfill_ProductIDs_Machine_LookupProducts
    by_cases h : mrows.isEmpty
    · rw [if_pos h]
      simp
    · rw [if_neg h]
  · unfold backfill_ItemIDs_Machine_LookupItems
      backfill_ProductIDs_Machine_LookupProducts
    by_cases h : mrows.isEmpty
    · rw [if_pos h]
      simp
    · rw [if_neg h]
  · unfold backfillTxnIDs_TransactionRaw
    by_cases h : trows.isEmpty
    · rw [if_pos h]
      have : trows = [] := by
        cases trows with
        | nil => rfl
        | cons a l => simp at h
      subst this
      rfl
    · rw [if_neg h]
      exact backfillTxnIDs_loop_writes uuid k trows
  · unfold generateItemID_H
    by_cases h : irows.isEmpty
    · rw [if_pos h]
      have : irows = [] := by
        cases irows with
        | nil => rfl
        | cons a l => simp at h
      subst this
      rfl
    · rw [if_neg h]
      exact (generateItemID_H_loop_counter C irows).2

/-- Witness for `single_bulk_write` on concrete tables. -/
theorem single_bulk_write_witness :
    ((backfill_ProductIDs_Machine_LookupProducts (fun _ => "u") 0
      [ { name := Cell.s "A", machineId := Cell.s "", rest := [] },
        { name := Cell.s "B", machineId := Cell.s "", rest := [] } ]).writeOps ≤ 1) ∧
    ((backfillTxnIDs_TransactionRaw (fun _ => "u") 0
      [ { trxDate := Cell.s "d", item := Cell.s "i", qtyVal := Cell.n 1,
          qtyUnit := Cell.s "u", price := Cell.n 2, txnId := Cell.s "",
          rest := [] },
        { trxDate := Cell.s "d", item := Cell.s "j", qtyVal := Cell.n 1,
          qtyUnit := Cell.s "u", price := Cell.n 3, txnId := Cell.s "",
          rest := [] } ]).2 = 2) := by
  have h := single_bulk_write (fun _ => "u") 0
    [ { name := Cell.s "A", machineId := Cell.s "", rest := [] },
      { name := Cell.s "B", machineId := Cell.s "", rest := [] } ]
    [ { trxDate := Cell.s "d", item := Cell.s "i", qtyVal := Cell.n 1,
        qtyUnit := Cell.s "u", price := Cell.n 2, txnId := Cell.s "",
        rest := [] },
      { trxDate := Cell.s "d", item := Cell.s "j", qtyVal := Cell.n 1,
        qtyUnit := Cell.s "u", price := Cell.n 3, txnId := Cell.s "",
        rest := [] } ] [] 0
  refine ⟨h.1, ?_⟩
  rw [h.2.2.1]
  decide

/-- Counterexample to C9 as stated: a run of the transaction-id
backfiller over two valid id-less rows issues two write operations to the
backfilled table, so not every backfiller variant writes the table back
in one bulk operation. -/
theorem single_bulk_write_counterexample :
    (backfillTxnIDs_TransactionRaw (fun _ => "u") 0
      [ { trxDate := Cell.s "d", item := Cell.s "i", qtyVal := Cell.n 1,
          qtyUnit := Cell.s "u", price := Cell.n 2, txnId := Cell.s "",
          rest := [] },
        { trxDate := Cell.s "d", item := Cell.s "j", qtyVal := Cell.n 1,
          qtyUnit := Cell.s "u", price := Cell.n 3, txnId := Cell.s "",
          rest := [] } ]).2 = 2 := by
  decide


/-! ### Precondition checks (raw-sheet level)
Raw embedding of the precondition phase of
`promoteApprovedProducts_FromStaging_ToLookup` (source lines 69-120) and
`cleanupInvalidTransactions_TransactionRaw` (source lines 63-96): a sheet
is `getDataRange().getValues()` split into the header row and the data
rows; a column is resolved with `header.indexOf(name)` and the first
`-1` entry (in `Object.entries` insertion order) raises the script's
error.  All checks happen before any write; in this embedding an
erroneous run returns `.error` and produces no output sheets at all.
The post-check bodies re-use the structured row functions via the
resolved column indices (faithful for rectangular sheets with distinct
headers, which the precondition contract of both scripts assumes). -/

/-- `getDataRange().getValues()`: the header row and the data rows. -/
structure Sheet where
  header : List Cell
  rows : List (List Cell)
deriving DecidableEq, Repr

/-- `header.indexOf(name)` (strict equality, so only a string cell equal
to `name` matches); `none` stands for `-1`. -/
def hdrIndexOf (hdr : List Cell) (n : String) : Option Nat :=
  hdr.findIdx? (fun c => c == Cell.s n)

/-- The resolved index of a column that is known to be present. -/
def colIdx (hdr : List Cell) (n : String) : Nat :=
  (hdrIndexOf hdr n).getD 0

/-- `row[i]` for a resolved index. -/
def cellAt (row : List Cell) (i : Nat) : Cell :=
  row.getD i (Cell.s "")

/-- The `IDX_LK` map of the promotion script in `Object.entries` order
(source lines 83-92): key, column header. -/
def lkCols : List (String × String) :=
  [("productId", "Product_ID_Machine"), ("productHuman", "Product_ID_Human"),
   ("productName", "Product_Name"), ("productCanon", "Product_Name_Canonical"),
   ("isActive", "Is_Active"), ("isArchived", "Is_Archived"),
   ("isStgPromoted", "Is_Staging_Promoted"), ("notes", "Notes")]

/-- The `IDX_STG` map of the promotion script in `Object.entries` order
(source lines 106-114), with the literal `Prodcut` header typos. -/
def stgCols : List (String × String) :=
  [("entered", "Prodcut_Name_Entered"), ("approved", "Prodcut_Name_Approved"),
   ("canon", "Prodcut_Name_Canonical"), ("isApproved", "Is_Approved"),
   ("isPromoted", "Is_Lookup_Promoted"),
   ("mappedId", "Mapped_Prodcut_ID_Machine"), ("notes", "Notes")]

/-- The first key whose column is absent from the header, in map order
(the key named by the thrown error), or `none` when all columns
resolve. -/
def firstMissingCol (hdr : List Cell) (cols : List (String × String)) :
    Option String :=
  (cols.find? (fun kv => (hdrIndexOf hdr kv.2).isNone)).map (fun kv => kv.1)

/-- A raw staging data row read through the resolved column indices. -/
def readStagingRow (hdr row : List Cell) : StagingRow :=
  { entered := cellAt row (colIdx hdr "Prodcut_Name_Entered")
    approved := cellAt row (colIdx hdr "Prodcut_Name_Approved")
    canon := cellAt row (colIdx hdr "Prodcut_Name_Canonical")
    isApproved := cellAt row (colIdx hdr "Is_Approved")
    isPromoted := cellAt row (colIdx hdr "Is_Lookup_Promoted")
    mappedId := cellAt row (colIdx hdr "Mapped_Prodcut_ID_Machine")
    rowNotes := cellAt row (colIdx hdr "Notes") }

/-- A queued `Lookup_Products` row placed into a raw row by header index
(source lines 149-157): an all-`''` array with the eight resolved cells
set. -/
def writeLookupRow (hdr : List Cell) (lkr : LookupRow) : List Cell :=
  ((((((((List.replicate hdr.length (Cell.s "")).set
    (colIdx hdr "Product_ID_Machine") lkr.productId).set
    (colIdx hdr "Product_ID_Human") lkr.productHuman).set
    (colIdx hdr "Product_Name") lkr.productName).set
    (colIdx hdr "Product_Name_Canonical") lkr.productCanon).set
    (colIdx hdr "Is_Active") lkr.isActive).set
    (colIdx hdr "Is_Archived") lkr.isArchived).set
    (colIdx hdr "Is_Staging_Promoted") lkr.isStgPromoted).set
    (colIdx hdr "Notes") lkr.rowNotes

/-- The staging write-back of one row (source lines 202-206): the
`Mapped_Prodcut_ID_Machine`, `Is_Lookup_Promoted` and `Notes` cells take
the values of the structured result row. -/
def writeStagingBack (hdr : List Cell) (raw : List Cell)
    (r : StagingRow) : List Cell :=
  ((raw.set (colIdx hdr "Mapped_Prodcut_ID_Machine") r.mappedId).set
    (colIdx hdr "Is_Lookup_Promoted") r.isPromoted).set
    (colIdx hdr "Notes") r.rowNotes

/-- The full raw run of the promotion script: sheet checks (source line
73), lookup column checks (lines 94-98), staging column checks (lines
116-120) — each raising the script's literal error string — then the
promotion loop and the two write phases. -/
def promoteApprovedProducts_raw (uuid : Nat → String) (k : Nat)
    (stgSheet lkSheet : Option Sheet) : Except String (Sheet × Sheet) :=
  match stgSheet, lkSheet with
  | some stgSh, some lkSh =>
    match firstMissingCol lkSh.header lkCols with
    | some key => .error ("Lookup_Products missing column: " ++ key)
    | none =>
      match firstMissingCol stgSh.header stgCols with
      | some key => .error ("Staging_Lookup_Products missing column: " ++ key)
      | none =>
        let out := promoteRun uuid k (stgSh.rows.map (readStagingRow stgSh.header))
        .ok ({ header := stgSh.header,
               rows := (stgSh.rows.zip out.2.2).map
                 (fun p => writeStagingBack stgSh.header p.1 p.2) },
             { header := lkSh.header,
               rows := lkSh.rows ++ out.2.1.map (writeLookupRow lkSh.header) })
  | _, _ => .error "Required sheet not found"

/-- The `IDX` map of the strict transaction cleanup in `Object.entries`
order (source lines 85-92). -/
def txnCols : List (String × String) :=
  [("trxDate", "Trx_Date_Entered"), ("item", "Item_Name_Entered"),
   ("qtyVal", "Qty_Value_Entered"), ("qtyUnit", "Qty_Unit_Entered"),
   ("price", "Price_Entered"), ("txnId", "Txn_ID_Machine")]

/-- One raw row of the strict cleanup (source lines 103-143): count the
five prerequisite cells that are not `''`, and when partially filled
replace the whole row by `new Array(r.length).fill('')`. -/
def cleanupTxnRawRow (hdr row : List Cell) : List Cell :=
  let prereq := [cellAt row (colIdx hdr "Trx_Date_Entered"),
    cellAt row (colIdx hdr "Item_Name_Entered"),
    cellAt row (colIdx hdr "Qty_Value_Entered"),
    cellAt row (colIdx hdr "Qty_Unit_Entered"),
    cellAt row (colIdx hdr "Price_Entered")]
  let filled := (prereq.filter (fun v => v ≠ Cell.s "")).length
  if 0 < filled ∧ filled < 5 then List.replicate row.length (Cell.s "")
  else row

/-- The full raw run of `cleanupInvalidTransactions_TransactionRaw`:
missing sheet (source line 65) and missing column (lines 94-96) raise the
script's literal error strings; an empty data body exits cleanly before
the column checks (lines 70-80). -/
def cleanupInvalidTransactions_raw (sheet : Option Sheet) :
    Except String Sheet :=
  match sheet with
  | none => .error "Sheet Transaction_Raw not found"
  | some sh =>
    if sh.rows.isEmpty then .ok sh
    else
      match firstMissingCol sh.header txnCols with
      | some key => .error ("Transaction_Raw missing column: " ++ key)
      | none => .ok { sh with rows := sh.rows.map (cleanupTxnRawRow sh.header) }

/-- Whether the second character list is an initial segment of the
first argument list. -/
def matchesHere : List Char → List Char → Bool
  | [], _ => true
  | _ :: _, [] => false
  | a :: as, b :: bs => a == b && matchesHere as bs

/-- Whether the character list `needle` occurs inside `hay`. -/
def containsChars (needle : List Char) : List Char → Bool
  | [] => matchesHere needle []
  | c :: tl => matchesHere needle (c :: tl) || containsChars needle tl

/-- Substring containment, used to state what an error message names. -/
def strContains (hay needle : String) : Bool :=
  containsChars needle.data hay.data


/-- C8 (amended): a missing required sheet or column makes the run return
an error before any sheet is produced (in this embedding an erroneous run
yields no output state at all, matching the scripts, whose precondition
checks all precede the first write).  Missing-column errors carry the
table name and the internal key of the missing column; the promotion
workflow's missing-sheet error is the fixed string
`'Required sheet not found'`, which names no table, while the
single-sheet cleanup names its sheet. -/
theorem preconditions_abort :
    (∀ uuid k lkSheet, promoteApprovedProducts_raw uuid k none lkSheet =
      .error "Required sheet not found") ∧
    (∀ uuid k stgSh, promoteApprovedProducts_raw uuid k (some stgSh) none =
      .error "Required sheet not found") ∧
    (∀ uuid k stgSh lkSh key,
      firstMissingCol (Sheet.header lkSh) lkCols = some key →
      promoteApprovedProducts_raw uuid k (some stgSh) (some lkSh) =
        .error ("Lookup_Products missing column: " ++ key)) ∧
    (∀ uuid k stgSh lkSh key,
      firstMissingCol (Sheet.header lkSh) lkCols = none →
      firstMissingCol (Sheet.header stgSh) stgCols = some key →
      promoteApprovedProducts_raw uuid k (some stgSh) (some lkSh) =
        .error ("Staging_Lookup_Products missing column: " ++ key)) ∧
    (cleanupInvalidTransactions_raw none =
      .error "Sheet Transaction_Raw not found") ∧
    (∀ sh key, sh.rows.isEmpty = false →
      firstMissingCol (Sheet.header sh) txnCols = some key →
      cleanupInvalidTransactions_raw (some sh) =
        .error ("Transaction_Raw missing column: " ++ key)) := by
  refine ⟨?_, ?_, ?_, ?_, rfl, ?_⟩
  · intro uuid k lkSheet
    cases lkSheet <;> rfl
  · intro uuid k stgSh
    rfl
  · intro uuid k stgSh lkSh key h
    simp [promoteApprovedProducts_raw, h]
  · intro uuid k stgSh lkSh key h1 h2
    simp [promoteApprovedProducts_raw, h1, h2]
  · intro sh key hne h
    simp [cleanupInvalidTransactions_raw, hne, h]

/-- Witness for `preconditions_abort`: a lookup header lacking
`Product_ID_Machine` raises the error naming `Lookup_Products` and the
key `productId`, and the message does contain the table name. -/
theorem preconditions_abort_witness :
    (promoteApprovedProducts_raw (fun _ => "u") 0
      (some { header := [], rows := [] })
      (some { header := [Cell.s "Notes"], rows := [] }) =
      .error "Lookup_Products missing column: productId") ∧
    strContains "Lookup_Products missing column: productId"
      "Lookup_Products" = true := by
  refine ⟨?_, by decide⟩
  have h := preconditions_abort.2.2.1 (fun _ => "u") 0
    { header := [], rows := [] } { header := [Cell.s "Notes"], rows := [] }
    "productId" (by decide)
  exact h

/-- Counterexample to C8 as stated: the promotion workflow with the
staging sheet missing throws the fixed error
`'Required sheet not found'`, which names neither the missing table
`Staging_Lookup_Products` nor any other table or column. -/
theorem preconditions_abort_counterexample :
    (promoteApprovedProducts_raw (fun _ => "u") 0 none
      (some { header := [], rows := [] }) =
      .error "Required sheet not found") ∧
    strContains "Required sheet not found" "Staging_Lookup_Products" = false ∧
    strContains "Required sheet not found" "Lookup_Products" = false := by
  refine ⟨rfl, by decide, by decide⟩


/-! ### Evaluation-log updater
Embedding of `processEvaluationRow_` and its helpers
(src/apps_script/v_1.3/20_Evaluation_Log_Updater.js): with the shipped
constant `DEBUG_MODE = true` (source lines 4-6), the evaluator-row reset
(`resetEvaluatorRow_`, lines 226-251) is never reached (lines 128-135),
so a run reads `Item_Buy_Evaluate` but mutates only the
`Item_Evaluation_Log` sheet.  The advisory lock, `flush` and `sleep`
calls change no cell and are not part of the state model.  `undefined`
is embedded as `none : Option Cell`; a log row may carry values copied
from a snapshot, hence log data rows are lists of `Option Cell`. -/

/-- Source lines 4-6: `const DEBUG_MODE = true`. -/
def DEBUG_MODE : Bool := true

/-- `getHeaderMap_` (source lines 257-269): map each truthy header cell's
trimmed string to its index; a duplicate header keeps its first position
but takes the later index (JavaScript object-key semantics). -/
def insertHeaderKey (m : List (String × Nat)) (key : String) (i : Nat) :
    List (String × Nat) :=
  if m.any (fun kv => kv.1 == key)
  then m.map (fun kv => if kv.1 == key then (key, i) else kv)
  else m ++ [(key, i)]

def getHeaderMap_ (hdr : List Cell) : List (String × Nat) :=
  hdr.enum.foldl
    (fun m p =>
      if truthy p.2 then insertHeaderKey m ((jsString p.2).trim) p.1 else m)
    []

/-- `getCell_` (source lines 275-284) on an evaluator row: find the first
key matching case-insensitively and return that cell; `none` stands for
`undefined`. -/
def getCell_ (row : List Cell) (map : List (String × Nat))
    (colName : String) : Option Cell :=
  match map.find? (fun kv => kv.1.toLower == colName.toLower) with
  | none => none
  | some kv => some (cellAt row kv.2)

/-- `getCell_` on a log-data row (whose cells may hold copied
`undefined` values). -/
def getCellLog (row : List (Option Cell)) (map : List (String × Nat))
    (colName : String) : Option Cell :=
  match map.find? (fun kv => kv.1.toLower == colName.toLower) with
  | none => none
  | some kv => row.getD kv.2 none

/-- Truthiness of a possibly-`undefined` value. -/
def truthyO : Option Cell → Bool
  | none => false
  | some c => truthy c

/-- `String(x)` of a possibly-`undefined` value. -/
def jsStringO : Option Cell → String
  | none => "undefined"
  | some c => jsString c

/-- JavaScript `Number(x)` restricted to integer results; `none` stands
for `NaN` (`Number(undefined)` and non-numeric strings; the model parses
integer literals only). -/
def jsNum : Option Cell → Option Int
  | none => none
  | some (Cell.n v) => some v
  | some (Cell.b true) => some 1
  | some (Cell.b false) => some 0
  | some (Cell.s s) =>
    let t := s.trim
    if t = "" then some 0 else t.toInt?

/-- Snapshot lookup: `snapshot[key]`, `none` when the key is absent. -/
def snapLookup (snap : List (String × Option Cell)) (key : String) :
    Option Cell :=
  match snap.find? (fun kv => kv.1 == key) with
  | none => none
  | some kv => kv.2

/-- Snapshot assignment: `snapshot[key] = v`, replacing in place or
appending. -/
def snapInsert (snap : List (String × Option Cell)) (key : String)
    (v : Option Cell) : List (String × Option Cell) :=
  if snap.any (fun kv => kv.1 == key)
  then snap.map (fun kv => if kv.1 == key then (key, v) else kv)
  else snap ++ [(key, v)]

/-- `buildSnapshot_` (source lines 148-170): copy every header-mapped
cell, then apply the explicit field mappings and set
`Eval_Ready_For_Logging`. -/
def buildSnapshot_ (headerMap : List (String × Nat)) (row : List Cell) :
    List (String × Option Cell) :=
  let base := headerMap.map (fun kv => (kv.1, some (cellAt row kv.2)))
  let s1 := snapInsert base "Evaluated_Item" (snapLookup base "Planned_Item")
  let s2 := snapInsert s1 "Evaluated_Brand" (snapLookup s1 "Planned_Brand")
  let s3 := snapInsert s2 "Evaluated_Product" (snapLookup s2 "Planned_Product")
  let s4 := snapInsert s3 "Evaluated_Platform" (snapLookup s3 "Current_Platform")
  let s5 := snapInsert s4 "Evaluated_Qty" (snapLookup s4 "Planned_Qty")
  let s6 := snapInsert s5 "Evaluated_Qty_Unit" (snapLookup s5 "Planned_Qty_Unit")
  let s7 := snapInsert s6 "Recorded_Normalised_Qty"
    (snapLookup s6 "Planned_Normalised_Qty")
  let s8 := snapInsert s7 "Evaluated_Price" (snapLookup s7 "Current_Price")
  let s9 := snapInsert s8 "Logged_At" (snapLookup s8 "Evaluated_At")
  snapInsert s9 "Eval_Ready_For_Logging" (some (Cell.b true))

/-- `norm` of `findMatchRow_` (source line 178):
`(v || "").toString().trim().toLowerCase()`. -/
def normEval (v : Option Cell) : String :=
  if truthyO v then ((jsStringO v).trim).toLower else ""

/-- `num(a) === num(b)` with `NaN === NaN` false (source lines 179,
190-191). -/
def numEqJS (a b : Option Cell) : Bool :=
  match jsNum a, jsNum b with
  | some x, some y => x == y
  | _, _ => false

/-- `findMatchRow_` (source lines 176-197): the first log-data row
agreeing with the snapshot on the six match fields; `none` stands for
`-1`. -/
def findMatchRow_ (snap : List (String × Option Cell))
    (logMap : List (String × Nat)) (logData : List (List (Option Cell))) :
    Option Nat :=
  logData.findIdx? (fun row =>
    (normEval (getCellLog row logMap "Evaluated_Item") ==
      normEval (snapLookup snap "Evaluated_Item")) &&
    (normEval (getCellLog row logMap "Evaluated_Brand") ==
      normEval (snapLookup snap "Evaluated_Brand")) &&
    (normEval (getCellLog row logMap "Evaluated_Product") ==
      normEval (snapLookup snap "Evaluated_Product")) &&
    (normEval (getCellLog row logMap "Evaluated_Platform") ==
      normEval (snapLookup snap "Evaluated_Platform")) &&
    numEqJS (getCellLog row logMap "Recorded_Normalised_Qty")
      (snapLookup snap "Recorded_Normalised_Qty") &&
    numEqJS (getCellLog row logMap "Evaluated_Price")
      (snapLookup snap "Evaluated_Price"))

/-- `buildLogRow_` (source lines 203-220): an all-`''` array of one cell
per log header key, filled from the snapshot by case-insensitive
trimmed-key match. -/
def buildLogRow_ (snap : List (String × Option Cell))
    (logMap : List (String × Nat)) : List (Option Cell) :=
  logMap.foldl
    (fun row kv =>
      match snap.find? (fun sk => sk.1.toLower.trim == kv.1.toLower.trim) with
      | none => row
      | some sk => row.set kv.2 sk.2)
    (List.replicate logMap.length (some (Cell.s "")))

/-- The columns `resetEvaluatorRow_` clears (source lines 228-238). -/
def resetClearCols : List String :=
  ["Planned_Item", "Planned_Brand", "Planned_Product", "Current_Platform",
   "Planned_Qty", "Planned_Qty_Unit", "Current_Price", "Evaluation_Date",
   "Evaluated_At"]

/-- `resetEvaluatorRow_` (source lines 226-251): clear the mapped cells
of `resetClearCols` and of `Evaluation_ID` in the given sheet row
(`rowIndex` is 1-based with the header in row 1). -/
def resetEvaluatorRow_ (sh : Sheet) (rowIndex : Nat)
    (headerMap : List (String × Nat)) : Sheet :=
  let row := sh.rows.getD (rowIndex - 2) []
  let row' := (resetClearCols ++ ["Evaluation_ID"]).foldl
    (fun r col =>
      match headerMap.find? (fun kv => kv.1 == col) with
      | none => r
      | some kv => r.set kv.2 (Cell.s ""))
    row
  { sh with rows := sh.rows.set (rowIndex - 2) row' }

/-- The log sheet: header row and data rows (whose cells may carry copied
`undefined` values). -/
structure LogSheet where
  header : List Cell
  rows : List (List (Option Cell))
deriving DecidableEq, Repr

/-- The two sheets `processEvaluationRow_` touches: `Item_Buy_Evaluate`
and (when present) `Item_Evaluation_Log`. -/
structure EvalUpdaterState where
  evalSheet : Sheet
  logSheet : Option LogSheet
deriving DecidableEq, Repr

/-- `processEvaluationRow_` (source lines 54-142): gating checks, then
update-or-append of one log row, then — only when `DEBUG_MODE` is
`false` — the evaluator-row reset. -/
def processEvaluationRow_ (st : EvalUpdaterState) (rowIndex : Nat) :
    EvalUpdaterState :=
  let headerMap := getHeaderMap_ st.evalSheet.header
  let row := st.evalSheet.rows.getD (rowIndex - 2) []
  if getCell_ row headerMap "Input_Ready_For_Comparison" ≠ some (Cell.b true)
    then st
  else if jsNum (getCell_ row headerMap "Compare_ID") ≠ some 1 then st
  else if ¬ truthyO (getCell_ row headerMap "Evaluation_ID") then st
  else if ¬ truthyO (getCell_ row headerMap "Summary_UI") ∨
      (jsStringO (getCell_ row headerMap "Summary_UI")).trim = "" then st
  else
    match st.logSheet with
    | none => st
    | some logSh =>
      let logHeaderMap := getHeaderMap_ logSh.header
      let snapshot := buildSnapshot_ headerMap row
      let newRow := buildLogRow_ snapshot logHeaderMap
      let logSh' :=
        match findMatchRow_ snapshot logHeaderMap logSh.rows with
        | some i => { logSh with rows := logSh.rows.set i newRow }
        | none => { logSh with rows := logSh.rows ++ [newRow] }
      if ¬ DEBUG_MODE then
        { evalSheet := resetEvaluatorRow_ st.evalSheet rowIndex headerMap,
          logSheet := some logSh' }
      else { st with logSheet := some logSh' }

/-- C10: with the shipped `DEBUG_MODE = true`, every run of
`processEvaluationRow_` — including those that append or update a log
row — leaves the `Item_Buy_Evaluate` sheet unchanged (the
`resetEvaluatorRow_` branch is unreachable), so the only sheet a run can
mutate is the evaluation-log sheet. -/
theorem debug_mode_eval_frame (st : EvalUpdaterState) (rowIndex : Nat) :
    (processEvaluationRow_ st rowIndex).evalSheet = st.evalSheet ∧
    DEBUG_MODE = true := by
  refine ⟨?_, rfl⟩
  unfold processEvaluationRow_
  by_cases h1 : getCell_ (st.evalSheet.rows.getD (rowIndex - 2) [])
      (getHeaderMap_ st.evalSheet.header) "Input_Ready_For_Comparison" ≠
      some (Cell.b true)
  · rw [if_pos h1]
  · rw [if_neg h1]
    split
    · rfl
    · split
      · rfl
      · split
        · rfl
        · split
          · rfl
          · simp [DEBUG_MODE]

